import Mathlib

/-!
# Verification of the REX-MH multi-project extraction pipeline

Shallow embedding of the core of `app.py`: the page normalization functions
(`clean_document`, `clean_pages`) and the orchestration function
(`parse_pdf_document`), together with theorems settling the specified
properties.

Modelling conventions:
* JSON values decoded by Python's `json.loads` are modelled by the inductive
  type `Json` (numbers restricted to integers, which is all the pipeline's
  decision logic inspects).
* Python truthiness, `dict.get`, slicing, `len`, iteration and chained
  comparisons are modelled by explicit functions (`pyTruthy`, `lookupKey`,
  `pySlice50`, `pyIter`, `pyChainedLe`), each faithful to CPython semantics
  on the `Json` universe.
* Operations that raise a Python exception (`TypeError`/`AttributeError`)
  return `none` / are routed to the enclosing handler exactly as the
  source's `try`/`except` blocks do.
* Progress-callback events and `print` diagnostics are recorded as
  structured values (`Status`, `LogEntry`); each constructor's doc comment
  quotes the f-string of the source line it stands for.
-/

/-- One page of the OCR response: `page.index` (0-based) and `page.markdown`. -/
structure OcrPage where
  index : Nat
  markdown : String
deriving Repr, DecidableEq

/-- JSON values as returned by `json.loads` (numbers restricted to integers,
which is all the pipeline's logic ever compares or tests). -/
inductive Json where
  | null
  | bool (b : Bool)
  | num (n : Int)
  | str (s : String)
  | arr (elems : List Json)
  | obj (fields : List (String × Json))

/-- Lookup of a key in a Python dict (modelled as an association list with
unique keys); `none` models the key being absent. -/
def lookupKey : List (String × Json) → String → Option Json
  | [], _ => none
  | (k, v) :: rest, key => if k = key then some v else lookupKey rest key

/-- Python `d[k] = v` on a dict: replaces the value of an existing key in
place, otherwise appends the new key at the end (insertion order). -/
def setKey : List (String × Json) → String → Json → List (String × Json)
  | [], k, v => [(k, v)]
  | (k', v') :: rest, k, v =>
    if k' = k then (k, v) :: rest else (k', v') :: setKey rest k v

/-- Python truthiness (`bool(x)`) of a decoded JSON value. -/
def pyTruthy : Json → Bool
  | .null => false
  | .bool b => b
  | .num n => decide (n ≠ 0)
  | .str s => decide (s ≠ "")
  | .arr xs => !xs.isEmpty
  | .obj kvs => !kvs.isEmpty

/-- Python `x <= n` for a decoded JSON value `x` and an int `n`;
`none` models a `TypeError` (`str`/`list`/`dict`/`None` are not ordered
against ints, while `bool` is an int subtype with `False = 0`, `True = 1`). -/
def pyLeJsonNat : Json → Nat → Option Bool
  | .num i, n => some (decide (i ≤ (n : Int)))
  | .bool b, n => some (decide ((if b then (1 : Int) else 0) ≤ (n : Int)))
  | _, _ => none

/-- Python `n <= x` for an int `n` and a decoded JSON value `x`
(same `TypeError` conventions as `pyLeJsonNat`). -/
def pyLeNatJson : Nat → Json → Option Bool
  | n, .num i => some (decide ((n : Int) ≤ i))
  | n, .bool b => some (decide ((n : Int) ≤ (if b then (1 : Int) else 0)))
  | _, _ => none

/-- Python chained comparison `s <= x <= e` (line 119 of `app.py`):
short-circuits, so `e` is only inspected when `s <= x` holds. -/
def pyChainedLe (s : Json) (x : Nat) (e : Json) : Option Bool := do
  let b1 ← pyLeJsonNat s x
  if b1 then pyLeNatJson x e else pure false

/-- The filtering comprehension of `clean_pages` (lines 117-120):
`[page for page in all_pages if start_page <= (page.index + 1) <= end_page]`,
evaluated left to right; `none` models the comprehension raising a
`TypeError` at the first page whose comparison is unsupported. -/
def cleanPagesFilter (s e : Json) : List OcrPage → Option (List OcrPage)
  | [] => some []
  | p :: rest => do
    let b ← pyChainedLe s (p.index + 1) e
    let tl ← cleanPagesFilter s e rest
    pure (if b then p :: tl else tl)

/-- The per-page transformation shared by `clean_document` and `clean_pages`:
`{"page_number": page.index + 1, "content": page.markdown}`. -/
def transformPage (p : OcrPage) : Nat × String := (p.index + 1, p.markdown)

/-- The `"pages"` list built by `clean_document` (lines 89-97); the source
then returns `json.dumps(transformed, indent=2)`, whose serialization is
modelled separately (`dumpsPayload`). -/
def clean_document (pages : List OcrPage) : List (Nat × String) :=
  pages.map transformPage

/-- The `"pages"` list built by `clean_pages` (lines 114-130): the range
filter followed by the same per-page transformation.  `none` models the
`TypeError` raised when a bound does not support `<=` against an int. -/
def clean_pages (pages : List OcrPage) (s e : Json) :
    Option (List (Nat × String)) :=
  (cleanPagesFilter s e pages).map (·.map transformPage)

/-- Fatal errors of one pipeline run (the argument of the final
`raise Exception(f"Erreur lors du traitement OCR: {str(e)}")` on line 308). -/
inductive Err where
  /-- Line 221: `Erreur lors du parsing de la liste de projets: {e}` —
  the list-extraction response is not valid JSON. -/
  | listParse
  /-- `AttributeError` from `project_list_dict.get("Liste", [])` (line 224)
  when `json.loads` returned a non-dict. -/
  | attrGet
  /-- Line 227: `Aucun projet trouvé dans le document` — the `Liste` value
  is falsy. -/
  | noProjects
  /-- `TypeError` from `len(projects)` (line 230) when the `Liste` value is
  a truthy non-container (number or `True`). -/
  | lenTypeError
  /-- Line 297: `Aucun projet n'a pu être analysé avec succès` — the
  per-project loop produced zero records. -/
  | noneAnalyzed
deriving Repr, DecidableEq

/-- Progress-callback events `(progress, status)`; each constructor records
the data interpolated into the status f-string of the quoted source line. -/
inductive Status where
  /-- Line 161: `Upload du fichier vers Mistral...` at progress `0.1`. -/
  | upload
  /-- Line 177: `Traitement OCR du document...` at progress `0.2`. -/
  | ocrRun
  /-- Line 192: `Extraction de la liste de projets...` at progress `0.3`. -/
  | listExtract
  /-- Line 215: `Vérification des projets...` at progress `0.4`. -/
  | verify
  /-- Line 230: `Extraction des données pour {len(projects)} projet(s)...`
  at progress `0.5`. -/
  | extracting (total : Nat)
  /-- Line 253: `Analyse du projet {idx + 1}/{len(projects)}:
  {project_title[:50]}...` at progress `0.5 + idx * progress_per_project`. -/
  | analyzing (idx total : Nat) (titleSliced : Json)
  /-- Line 300: `Traitement terminé - {len(parsed_data)} projet(s)
  extrait(s)` at progress `1.0`. -/
  | finished (count : Nat)
  /-- Line 307: `Erreur: {str(e)}` at progress `0`, emitted by the outer
  exception handler just before re-raising. -/
  | failed (e : Err)

/-- Stdout diagnostics printed inside the per-project loop. -/
inductive LogEntry where
  /-- Line 246: `Warning: Projet '{project_title}' n'a pas de pages
  définies, ignoré`. -/
  | noPages (title : Json)
  /-- Line 287: `Projet '{project_title}' analysé avec succès`. -/
  | success (title : Json)
  /-- Line 289: `Warning: Erreur lors du parsing du projet
  '{project_title}': {e}`. -/
  | parseError (title : Json)
  /-- Line 293: `Warning: Erreur lors du traitement du projet {idx + 1}:
  {e}` — the catch-all handler of the per-candidate `try`. -/
  | projError (idx : Nat)

/-- Python `x[:50]` (line 253): defined for strings and lists, a `TypeError`
(`none`) for every other decoded JSON value. -/
def pySlice50 : Json → Option Json
  | .str s => some (.str (s.take 50))
  | .arr xs => some (.arr (xs.take 50))
  | _ => none

/-- The positional fallback title `f"Projet {idx + 1}"` of line 243. -/
def fallbackTitle (idx : Nat) : String := "Projet " ++ toString (idx + 1)

/-- Line 243: `project.get("Titre", f"Projet {idx + 1}")`. -/
def titleOf (kvs : List (String × Json)) (idx : Nat) : Json :=
  (lookupKey kvs "Titre").getD (.str (fallbackTitle idx))

/-- Everything one iteration of the per-project loop (lines 239-294)
produces: progress events, stdout diagnostics, whether the per-project
chat call (line 260) was made, and the record appended to `parsed_data`
(if any). -/
structure StepOut where
  events : List (ℚ × Status)
  logs : List LogEntry
  callMade : Bool
  record : Option Json

/-- One iteration of the per-project loop (lines 239-294) for candidate
`project` at position `idx`, where `resp` is the per-project
structured-extraction response for this candidate (`none` = the response
is not valid JSON, i.e. `json.loads` on line 281 raises).

Faithful exception routing:
* a non-dict candidate makes `project.get` (line 241) raise
  `AttributeError`, caught by the catch-all on line 292;
* missing `PageDebut`/`PageFin` read as Python `None` (hence falsy);
* a non-sliceable title makes `project_title[:50]` (line 253) raise
  `TypeError` before the progress event is emitted, caught on line 292;
* non-comparable page bounds make `clean_pages` (line 257) raise
  `TypeError`, caught on line 292;
* a response parsing to a non-dict makes the item assignment on line 283
  raise `TypeError`, caught on line 292. -/
def processCandidate (pages : List OcrPage) (total : Nat)
    (resp : Option Json) (idx : Nat) (project : Json) : StepOut :=
  match project with
  | .obj kvs =>
    let sp := (lookupKey kvs "PageDebut").getD .null
    let ep := (lookupKey kvs "PageFin").getD .null
    let title := titleOf kvs idx
    if !pyTruthy sp || !pyTruthy ep then
      ⟨[], [.noPages title], false, none⟩
    else
      match pySlice50 title with
      | none => ⟨[], [.projError idx], false, none⟩
      | some sliced =>
        let ev : ℚ × Status :=
          (1/2 + (idx : ℚ) * ((2/5) / (total : ℚ)),
           .analyzing idx total sliced)
        match clean_pages pages sp ep with
        | none => ⟨[ev], [.projError idx], false, none⟩
        | some _payload =>
          match resp with
          | none => ⟨[ev], [.parseError title], true, none⟩
          | some (.obj pkvs) =>
            ⟨[ev], [.success title], true,
             some (.obj (setKey (setKey (setKey pkvs
               "_project_title" title) "_page_debut" sp) "_page_fin" ep))⟩
          | some _ => ⟨[ev], [.projError idx], true, none⟩
  | _ => ⟨[], [.projError idx], false, none⟩

/-- The per-project loop `for idx, project in enumerate(projects)`
(line 239), threading the enumeration index. -/
def runLoop (pages : List OcrPage) (resps : Nat → Option Json)
    (total : Nat) : Nat → List Json → List StepOut
  | _, [] => []
  | idx, p :: rest =>
    processCandidate pages total (resps idx) idx p ::
      runLoop pages resps total (idx + 1) rest

/-- All progress events of a loop run, in order. -/
def stepsEvents (steps : List StepOut) : List (ℚ × Status) :=
  (steps.map (·.events)).flatten

/-- All stdout diagnostics of a loop run, in order. -/
def stepsLogs (steps : List StepOut) : List LogEntry :=
  (steps.map (·.logs)).flatten

/-- `parsed_data`: the records appended by the loop, in candidate order. -/
def stepsRecords (steps : List StepOut) : List Json :=
  steps.filterMap (·.record)

/-- The number of per-project chat calls (line 260) the loop made. -/
def stepsCalls (steps : List StepOut) : Nat :=
  (steps.filter (·.callMade)).length

/-- Line 224: `project_list_dict.get("Liste", [])`; `none` models the
`AttributeError` raised when `json.loads` returned a non-dict. -/
def getListe : Json → Option Json
  | .obj kvs => some ((lookupKey kvs "Liste").getD (.arr []))
  | _ => none

/-- Python iteration over the `Liste` value: a list yields its elements, a
string its 1-character substrings, a dict its keys; `none` models the
`TypeError` on truthy non-iterables.  `len` agrees with the length of this
list on every iterable the pipeline can reach. -/
def pyIter : Json → Option (List Json)
  | .arr xs => some xs
  | .str s => some (s.data.map fun c => Json.str (String.singleton c))
  | .obj kvs => some (kvs.map fun kv => Json.str kv.1)
  | _ => none

/-- The environment of one run of `parse_pdf_document`, i.e. the behaviour
of the external Mistral capabilities after a successful upload and OCR:
the OCR page list, the decoded list-extraction response (`none` = not
valid JSON, `json.loads` on line 219 raises), and the decoded per-project
response for the candidate at each enumeration index (`none` = not valid
JSON, `json.loads` on line 281 raises). -/
structure Env where
  ocrPages : List OcrPage
  listResponse : Option Json
  projResponses : Nat → Option Json

/-- The observable outcome of one run: the progress events in emission
order, the stdout diagnostics, the number of per-project chat calls made,
and the returned `parsed_data` or the fatal error (which line 308 wraps as
`Erreur lors du traitement OCR: {str(e)}` and re-raises). -/
structure RunResult where
  events : List (ℚ × Status)
  logs : List LogEntry
  projCalls : Nat
  result : Except Err (List Json)

/-- The four progress events every run emits before the list response is
parsed (lines 161, 177, 192, 215). -/
def preEvents : List (ℚ × Status) :=
  [(1/10, .upload), (1/5, .ocrRun), (3/10, .listExtract), (2/5, .verify)]

/-- A run aborted by the fatal error `e`: the outer handler (lines
305-308) emits `(0, "Erreur: {str(e)}")` and re-raises. -/
def failRun (evs : List (ℚ × Status)) (logs : List LogEntry)
    (calls : Nat) (e : Err) : RunResult :=
  ⟨evs ++ [(0, .failed e)], logs, calls, .error e⟩

/-- `parse_pdf_document` (lines 135-308) after a successful upload and OCR,
as a function of the environment `env`:

1. emit the four fixed progress events;
2. parse the list-extraction response (line 219) — failure is fatal;
3. `projects = project_list_dict.get("Liste", [])` (line 224);
4. `if not projects: raise` (lines 226-227);
5. emit `(0.5, ...)` (line 230, after `len(projects)` succeeded) and run
   the per-project loop with `progress_per_project = 0.4 / len(projects)`;
6. `if not parsed_data: raise` (lines 296-297), otherwise emit
   `(1.0, ...)` and return `parsed_data`. -/
def parse_pdf_document (env : Env) : RunResult :=
  match env.listResponse with
  | none => failRun preEvents [] 0 .listParse
  | some pld =>
    match getListe pld with
    | none => failRun preEvents [] 0 .attrGet
    | some projectsJ =>
      if !pyTruthy projectsJ then failRun preEvents [] 0 .noProjects
      else
        match pyIter projectsJ with
        | none => failRun preEvents [] 0 .lenTypeError
        | some elems =>
          let n := elems.length
          let steps := runLoop env.ocrPages env.projResponses n 0 elems
          let recs := stepsRecords steps
          let evs := preEvents ++ [(1/2, Status.extracting n)] ++
            stepsEvents steps
          if recs.isEmpty then
            failRun evs (stepsLogs steps) (stepsCalls steps) .noneAnalyzed
          else
            ⟨evs ++ [(1, .finished recs.length)], stepsLogs steps,
             stepsCalls steps, .ok recs⟩

/-! ## Page normalization (claim C2) -/

theorem pyChainedLe_num (s e : Int) (x : Nat) :
    pyChainedLe (.num s) x (.num e) =
      some (decide (s ≤ (x : Int)) && decide ((x : Int) ≤ e)) := by
  unfold pyChainedLe pyLeJsonNat pyLeNatJson
  by_cases h : s ≤ (x : Int) <;> simp [h, Option.bind]

/-- With integer bounds the filtering comprehension never raises and is an
order-preserving filter. -/
theorem cleanPagesFilter_num (s e : Int) (pages : List OcrPage) :
    cleanPagesFilter (.num s) (.num e) pages =
      some (pages.filter fun p =>
        decide (s ≤ ((p.index + 1 : Nat) : Int)) &&
        decide (((p.index + 1 : Nat) : Int) ≤ e)) := by
  induction pages with
  | nil => rfl
  | cons p rest ih =>
    simp only [cleanPagesFilter, pyChainedLe_num, ih, Option.bind_some,
      List.filter_cons]
    by_cases h1 : s ≤ ((p.index + 1 : Nat) : Int) <;>
      by_cases h2 : ((p.index + 1 : Nat) : Int) ≤ e <;>
        simp [h1, h2]

/-- C2 (amended): for integer bounds `s ≤ e`, the range-filtered
normalization contains exactly those pages of the whole-document
normalization whose `page_number` lies in `[s, e]`, in the order they
appear there (no sorting is performed); consequently `page_number` is
strictly increasing in the output whenever the OCR document's pages are
already sorted by index — but nothing sorts them first. -/
theorem clean_pages_range_filter (pages : List OcrPage) (s e : Int)
    (_hse : s ≤ e) :
    clean_pages pages (.num s) (.num e) =
      some ((clean_document pages).filter fun q =>
        decide (s ≤ (q.1 : Int)) && decide ((q.1 : Int) ≤ e)) ∧
    (List.Pairwise (fun p q => p.index < q.index) pages →
      ∀ l, clean_pages pages (.num s) (.num e) = some l →
        List.Pairwise (· < ·) (l.map Prod.fst)) := by
  have hmain : clean_pages pages (.num s) (.num e) =
      some ((clean_document pages).filter fun q =>
        decide (s ≤ (q.1 : Int)) && decide ((q.1 : Int) ≤ e)) := by
    simp only [clean_pages, cleanPagesFilter_num, Option.map_some,
      clean_document, List.filter_map]
    congr 1
  refine ⟨hmain, fun hsorted l hl => ?_⟩
  rw [hmain] at hl
  obtain rfl : ((clean_document pages).filter fun q =>
      decide (s ≤ (q.1 : Int)) && decide ((q.1 : Int) ≤ e)) = l :=
    Option.some.inj hl
  have h1 : List.Pairwise (fun p q : Nat × String => p.1 < q.1)
      (clean_document pages) := by
    unfold clean_document
    rw [List.pairwise_map]
    exact hsorted.imp (fun h => by simpa [transformPage] using h)
  have h2 := h1.filter (fun q =>
    decide (s ≤ (q.1 : Int)) && decide ((q.1 : Int) ≤ e))
  rw [List.pairwise_map]
  exact h2

/-- C2 (counterexample to the claim as stated): on an OCR document whose
pages are not sorted by index, `clean_pages` filters without sorting, so
the output's `page_number` sequence is not increasing: the claim's
"normalization sorts before filtering" is false of the code. -/
theorem clean_pages_unsorted_cex :
    clean_pages [⟨1, "b"⟩, ⟨0, "a"⟩] (.num 1) (.num 2) =
      some [(2, "b"), (1, "a")] ∧
    ¬ List.Pairwise (· < ·)
      (([(2, "b"), (1, "a")] : List (Nat × String)).map Prod.fst) :=
  ⟨by decide, by decide⟩

/-- Witness for `clean_pages_range_filter` at a concrete sorted document
and range `[1, 2]`. -/
theorem clean_pages_range_filter_witness :
    (1 : Int) ≤ 2 ∧
    (clean_pages ([⟨0, "a"⟩, ⟨1, "b"⟩, ⟨2, "c"⟩] : List OcrPage)
        (.num 1) (.num 2) =
      some ((clean_document
          ([⟨0, "a"⟩, ⟨1, "b"⟩, ⟨2, "c"⟩] : List OcrPage)).filter fun q =>
        decide ((1 : Int) ≤ (q.1 : Int)) && decide ((q.1 : Int) ≤ 2)) ∧
    (List.Pairwise (fun p q => p.index < q.index)
        ([⟨0, "a"⟩, ⟨1, "b"⟩, ⟨2, "c"⟩] : List OcrPage) →
      ∀ l, clean_pages ([⟨0, "a"⟩, ⟨1, "b"⟩, ⟨2, "c"⟩] : List OcrPage)
          (.num 1) (.num 2) = some l →
        List.Pairwise (· < ·) (l.map Prod.fst))) :=
  ⟨by decide, clean_pages_range_filter
    ([⟨0, "a"⟩, ⟨1, "b"⟩, ⟨2, "c"⟩] : List OcrPage) 1 2 (by decide)⟩

/-! ## Per-project loop: structural lemmas -/

theorem runLoop_length (pages : List OcrPage) (resps : Nat → Option Json)
    (total : Nat) : ∀ (elems : List Json) (i : Nat),
    (runLoop pages resps total i elems).length = elems.length := by
  intro elems
  induction elems with
  | nil => intro i; rfl
  | cons p rest ih => intro i; simp [runLoop, ih]


theorem runLoop_getElem? (pages : List OcrPage) (resps : Nat → Option Json)
    (total : Nat) : ∀ (elems : List Json) (i k : Nat),
    (runLoop pages resps total i elems)[k]? =
      (elems[k]?).map fun p =>
        processCandidate pages total (resps (i + k)) (i + k) p := by
  intro elems
  induction elems with
  | nil => intro i k; simp [runLoop]
  | cons p rest ih =>
    intro i k
    cases k with
    | zero => simp [runLoop]
    | succ k' =>
      simp only [runLoop, List.getElem?_cons_succ]
      rw [ih (i + 1) k']
      have h : i + 1 + k' = i + (k' + 1) := by omega
      rw [h]

theorem processCandidate_noParse (pages : List OcrPage) (total idx : Nat)
    (p : Json) :
    (processCandidate pages total none idx p).record = none ∧
    ((processCandidate pages total none idx p).callMade = true →
      ∃ t, (processCandidate pages total none idx p).logs =
        [.parseError t]) := by
  unfold processCandidate
  cases p
  case obj kvs =>
    dsimp only
    split
    · simp
    · split
      · simp
      · split <;> simp
  all_goals simp

/-! ## Claim C1: per-candidate isolation -/

/-- C1: if the structured-extraction response for candidate `i` fails to
parse as JSON (`f i = none`), the loop still processes every candidate,
candidate `i` contributes no record (and, when its per-project call was
made, is skipped with exactly the parse warning of line 289), and the
outcome of every other candidate is unchanged with respect to any
alternative response behaviour `g` that agrees with `f` away from `i`:
no exception propagates past the per-project loop. -/
theorem per_candidate_isolation (pages : List OcrPage) (total : Nat)
    (elems : List Json) (f g : Nat → Option Json) (i : Nat)
    (hf : f i = none) (hg : ∀ j, j ≠ i → g j = f j) :
    (runLoop pages f total 0 elems).length = elems.length ∧
    (∀ st, (runLoop pages f total 0 elems)[i]? = some st →
      st.record = none ∧
      (st.callMade = true → ∃ t, st.logs = [.parseError t])) ∧
    (∀ j, j ≠ i →
      (runLoop pages g total 0 elems)[j]? =
        (runLoop pages f total 0 elems)[j]?) := by
  refine ⟨runLoop_length pages f total elems 0, ?_, ?_⟩
  · intro st hst
    rw [runLoop_getElem?] at hst
    cases helems : elems[i]? with
    | none => rw [helems] at hst; exact Option.noConfusion hst
    | some p =>
      rw [helems] at hst
      have hst2 : processCandidate pages total (f (0 + i)) (0 + i) p = st := by
        simpa using hst
      have h0 : 0 + i = i := Nat.zero_add i
      rw [h0, hf] at hst2
      rw [← hst2]
      exact processCandidate_noParse pages total i p
  · intro j hj
    rw [runLoop_getElem?, runLoop_getElem?]
    have h0 : 0 + j = j := Nat.zero_add j
    rw [h0, hg j hj]

/-- Witness for `per_candidate_isolation`: two candidates, the response
for candidate 0 fails to parse, candidate 1 unaffected. -/
theorem per_candidate_isolation_witness :
    ((fun _ : Nat => (none : Option Json)) 0 = none) ∧
    (∀ j : Nat, j ≠ 0 →
      (fun j => if j = 0 then some Json.null else none) j =
        (fun _ : Nat => (none : Option Json)) j) ∧
    ((runLoop [] (fun _ => none) 2 0
        ([.obj [("PageDebut", .num 1), ("PageFin", .num 1)],
          .obj [("PageDebut", .num 2), ("PageFin", .num 2)]] :
          List Json)).length = 2 ∧
    (∀ st, (runLoop [] (fun _ => none) 2 0
        ([.obj [("PageDebut", .num 1), ("PageFin", .num 1)],
          .obj [("PageDebut", .num 2), ("PageFin", .num 2)]] :
          List Json))[0]? = some st →
      st.record = none ∧
      (st.callMade = true → ∃ t, st.logs = [.parseError t])) ∧
    (∀ j, j ≠ 0 →
      (runLoop [] (fun j => if j = 0 then some Json.null else none) 2 0
        ([.obj [("PageDebut", .num 1), ("PageFin", .num 1)],
          .obj [("PageDebut", .num 2), ("PageFin", .num 2)]] :
          List Json))[j]? =
        (runLoop [] (fun _ => none) 2 0
        ([.obj [("PageDebut", .num 1), ("PageFin", .num 1)],
          .obj [("PageDebut", .num 2), ("PageFin", .num 2)]] :
          List Json))[j]?)) :=
  ⟨rfl, fun j hj => by simp [hj],
   per_candidate_isolation [] 2 _ (fun _ => none)
     (fun j => if j = 0 then some Json.null else none) 0 rfl
     (fun j hj => by simp [hj])⟩

/-! ## Claim C4: falsy page bounds are filtered out -/

/-- Candidate-level classification: a dict candidate whose `PageDebut` or
`PageFin` is missing or falsy (the test of line 245, with missing keys read
as Python `None`). -/
def candidateFalsyPages : Json → Bool
  | .obj kvs =>
    !pyTruthy ((lookupKey kvs "PageDebut").getD .null) ||
    !pyTruthy ((lookupKey kvs "PageFin").getD .null)
  | _ => false

/-- Step-level classification: the iteration took the `continue` of
line 247, i.e. printed exactly the line-246 warning. -/
def stepDroppedNoPages (st : StepOut) : Bool :=
  match st.logs with
  | [.noPages _] => true
  | _ => false

/-- A falsy-page dict candidate is dropped with the line-246 warning before
any per-project work: no progress event, no chat call, no record. -/
theorem processCandidate_falsy (pages : List OcrPage) (total idx : Nat)
    (r : Option Json) (kvs : List (String × Json))
    (hfalsy : candidateFalsyPages (.obj kvs) = true) :
    processCandidate pages total r idx (.obj kvs) =
      ⟨[], [.noPages (titleOf kvs idx)], false, none⟩ := by
  unfold processCandidate
  dsimp only
  rw [if_pos]
  unfold candidateFalsyPages at hfalsy
  exact hfalsy

/-- The loop iteration takes the line-247 `continue` exactly on the
candidates classified falsy by the line-245 test. -/
theorem stepDroppedNoPages_processCandidate (pages : List OcrPage)
    (total idx : Nat) (r : Option Json) (p : Json) :
    stepDroppedNoPages (processCandidate pages total r idx p) =
      candidateFalsyPages p := by
  unfold processCandidate candidateFalsyPages
  cases p
  case obj kvs =>
    dsimp only
    split
    case isTrue h => simpa [stepDroppedNoPages] using h
    case isFalse h =>
      simp only [Bool.or_eq_true, Bool.not_eq_true'] at h
      rw [not_or] at h
      obtain ⟨h1, h2⟩ := h
      have h1' : pyTruthy ((lookupKey kvs "PageDebut").getD Json.null) = true := by
        revert h1; cases pyTruthy ((lookupKey kvs "PageDebut").getD Json.null) <;> simp
      have h2' : pyTruthy ((lookupKey kvs "PageFin").getD Json.null) = true := by
        revert h2; cases pyTruthy ((lookupKey kvs "PageFin").getD Json.null) <;> simp
      split
      · simp [stepDroppedNoPages, h1', h2']
      · split
        · simp [stepDroppedNoPages, h1', h2']
        · split <;> simp [stepDroppedNoPages, h1', h2']
  all_goals simp [stepDroppedNoPages]

theorem runLoop_countP_dropped (pages : List OcrPage)
    (resps : Nat → Option Json) (total : Nat) :
    ∀ (elems : List Json) (i : Nat),
    (runLoop pages resps total i elems).countP stepDroppedNoPages =
      elems.countP candidateFalsyPages := by
  intro elems
  induction elems with
  | nil => intro i; rfl
  | cons p rest ih =>
    intro i
    simp [runLoop, List.countP_cons, ih,
      stepDroppedNoPages_processCandidate]

theorem runLoop_countP_kept (pages : List OcrPage)
    (resps : Nat → Option Json) (total : Nat) :
    ∀ (elems : List Json) (i : Nat),
    (runLoop pages resps total i elems).countP
        (fun st => !stepDroppedNoPages st) =
      elems.countP (fun p => !candidateFalsyPages p) := by
  intro elems
  induction elems with
  | nil => intro i; rfl
  | cons p rest ih =>
    intro i
    simp [runLoop, List.countP_cons, ih,
      stepDroppedNoPages_processCandidate]

/-- C4: every dict candidate whose `PageDebut` or `PageFin` is missing,
zero or otherwise falsy is dropped before any per-project extraction, with
the line-246 warning and no chat call, no progress event and no record
(never an error); the loop still processes every candidate, and the count
of dropped iterations plus the count of kept iterations equals the raw
candidate count from the model response. -/
theorem falsy_page_candidates_dropped (pages : List OcrPage) (total : Nat)
    (f : Nat → Option Json) (elems : List Json) :
    (∀ (idx : Nat) (kvs : List (String × Json)),
      elems[idx]? = some (.obj kvs) →
      candidateFalsyPages (.obj kvs) = true →
      (runLoop pages f total 0 elems)[idx]? =
        some ⟨[], [.noPages (titleOf kvs idx)], false, none⟩) ∧
    (runLoop pages f total 0 elems).length = elems.length ∧
    (runLoop pages f total 0 elems).countP stepDroppedNoPages =
      elems.countP candidateFalsyPages ∧
    (runLoop pages f total 0 elems).countP
        (fun st => !stepDroppedNoPages st) =
      elems.countP (fun p => !candidateFalsyPages p) ∧
    elems.countP candidateFalsyPages +
      elems.countP (fun p => !candidateFalsyPages p) = elems.length := by
  refine ⟨?_, runLoop_length pages f total elems 0,
    runLoop_countP_dropped pages f total elems 0,
    runLoop_countP_kept pages f total elems 0, ?_⟩
  · intro idx kvs hidx hfalsy
    rw [runLoop_getElem?, hidx, Option.map_some', Nat.zero_add]
    exact congrArg some
      (processCandidate_falsy pages total idx (f idx) kvs hfalsy)
  · have hq : elems.countP (fun a => decide ¬(candidateFalsyPages a = true)) =
        elems.countP (fun p => !candidateFalsyPages p) :=
      List.countP_congr (fun a _ => by cases candidateFalsyPages a <;> simp)
    rw [← hq]
    exact (List.length_eq_countP_add_countP candidateFalsyPages elems).symm

/-- Witness for `falsy_page_candidates_dropped`: the spec's own example
candidate `{Titre: "B", PageDebut: 0, PageFin: 5}` (0 is falsy). -/
theorem falsy_page_candidates_dropped_witness :
    (runLoop [] (fun _ => none) 1 0
        ([.obj [("Titre", .str "B"), ("PageDebut", .num 0),
          ("PageFin", .num 5)]] : List Json))[0]? =
      some ⟨[], [.noPages (.str "B")], false, none⟩ ∧
    ([.obj [("Titre", .str "B"), ("PageDebut", .num 0),
      ("PageFin", .num 5)]] : List Json).countP candidateFalsyPages +
      ([.obj [("Titre", .str "B"), ("PageDebut", .num 0),
        ("PageFin", .num 5)]] : List Json).countP
        (fun p => !candidateFalsyPages p) = 1 := by
  constructor
  · exact (falsy_page_candidates_dropped [] 1 (fun _ => none)
      [.obj [("Titre", .str "B"), ("PageDebut", .num 0),
        ("PageFin", .num 5)]]).1 0
      [("Titre", .str "B"), ("PageDebut", .num 0), ("PageFin", .num 5)]
      rfl rfl
  · exact (falsy_page_candidates_dropped [] 1 (fun _ => none)
      [.obj [("Titre", .str "B"), ("PageDebut", .num 0),
        ("PageFin", .num 5)]]).2.2.2.2

/-! ## Claim C8: metadata fields of a successful record -/

theorem lookupKey_setKey_self (l : List (String × Json)) (k : String)
    (v : Json) : lookupKey (setKey l k v) k = some v := by
  induction l with
  | nil => simp [setKey, lookupKey]
  | cons kv rest ih =>
    obtain ⟨k', v'⟩ := kv
    by_cases h : k' = k <;> simp [setKey, lookupKey, h, ih]

theorem lookupKey_setKey_other (l : List (String × Json)) (k k' : String)
    (v : Json) (h : k' ≠ k) :
    lookupKey (setKey l k v) k' = lookupKey l k' := by
  induction l with
  | nil => simp [setKey, lookupKey, Ne.symm h]
  | cons kv rest ih =>
    obtain ⟨k'', v''⟩ := kv
    by_cases h2 : k'' = k
    · subst h2
      simp [setKey, lookupKey, Ne.symm h]
    · simp [setKey, lookupKey, h2, ih]

theorem runLoop_append (pages : List OcrPage) (resps : Nat → Option Json)
    (total : Nat) : ∀ (l1 l2 : List Json) (i : Nat),
    runLoop pages resps total i (l1 ++ l2) =
      runLoop pages resps total i l1 ++
        runLoop pages resps total (i + l1.length) l2 := by
  intro l1
  induction l1 with
  | nil => intro l2 i; simp [runLoop]
  | cons p rest ih =>
    intro l2 i
    simp only [List.cons_append, runLoop, List.length_cons, List.append_eq]
    rw [ih l2 (i + 1)]
    have h : i + 1 + rest.length = i + (rest.length + 1) := by omega
    rw [h]

/-- C8: a successfully parsed per-project response (a JSON object) yields
the parsed object with the three metadata fields set — `_project_title` to
the candidate's title, `_page_debut` to its `PageDebut`, `_page_fin` to its
`PageFin` (lines 283-285) — and records are appended in candidate order
(the loop over a concatenation is the concatenation of the loops). -/
theorem successful_record_metadata (pages : List OcrPage) (total idx : Nat)
    (kvs pkvs : List (String × Json)) (sp ep sl : Json)
    (pl : List (Nat × String))
    (hsp : lookupKey kvs "PageDebut" = some sp)
    (hep : lookupKey kvs "PageFin" = some ep)
    (hts : pyTruthy sp = true) (hte : pyTruthy ep = true)
    (hsl : pySlice50 (titleOf kvs idx) = some sl)
    (hcp : clean_pages pages sp ep = some pl) :
    (processCandidate pages total (some (.obj pkvs)) idx (.obj kvs)).record =
      some (.obj (setKey (setKey (setKey pkvs
        "_project_title" (titleOf kvs idx)) "_page_debut" sp)
        "_page_fin" ep)) ∧
    lookupKey (setKey (setKey (setKey pkvs
        "_project_title" (titleOf kvs idx)) "_page_debut" sp)
        "_page_fin" ep) "_project_title" = some (titleOf kvs idx) ∧
    lookupKey (setKey (setKey (setKey pkvs
        "_project_title" (titleOf kvs idx)) "_page_debut" sp)
        "_page_fin" ep) "_page_debut" = some sp ∧
    lookupKey (setKey (setKey (setKey pkvs
        "_project_title" (titleOf kvs idx)) "_page_debut" sp)
        "_page_fin" ep) "_page_fin" = some ep ∧
    (∀ (f : Nat → Option Json) (i : Nat) (l1 l2 : List Json),
      stepsRecords (runLoop pages f total i (l1 ++ l2)) =
        stepsRecords (runLoop pages f total i l1) ++
          stepsRecords (runLoop pages f total (i + l1.length) l2)) := by
  refine ⟨?_, ?_, ?_, ?_, ?_⟩
  · unfold processCandidate
    dsimp only
    rw [hsp, hep]
    simp only [Option.getD_some]
    rw [if_neg (by simp [hts, hte]), hsl, hcp]
  · rw [lookupKey_setKey_other _ _ _ _ (by decide),
      lookupKey_setKey_other _ _ _ _ (by decide), lookupKey_setKey_self]
  · rw [lookupKey_setKey_other _ _ _ _ (by decide), lookupKey_setKey_self]
  · exact lookupKey_setKey_self _ _ _
  · intro f i l1 l2
    rw [runLoop_append]
    unfold stepsRecords
    exact List.filterMap_append _ _ _

/-- Witness for `successful_record_metadata`: the spec's example candidate
`{Titre: "A", PageDebut: 1, PageFin: 3}` with response `{"X": 7}`. -/
theorem successful_record_metadata_witness :
    (processCandidate [⟨0, "x"⟩] 1 (some (.obj [("X", .num 7)])) 0
      (.obj [("Titre", .str "A"), ("PageDebut", .num 1),
        ("PageFin", .num 3)])).record =
      some (.obj [("X", .num 7), ("_project_title", .str "A"),
        ("_page_debut", .num 1), ("_page_fin", .num 3)]) := by
  have h := (successful_record_metadata [⟨0, "x"⟩] 1 0
    [("Titre", .str "A"), ("PageDebut", .num 1), ("PageFin", .num 3)]
    [("X", .num 7)] (.num 1) (.num 3) (.str ("A".take 50)) [(1, "x")]
    rfl rfl rfl rfl rfl rfl).1
  exact h

/-! ## Claim C10: positional fallback title -/

/-- C10: when a candidate dict has no `Titre` key, the title used everywhere
is `f"Projet {idx + 1}"` (1-based position): it is the title of the
line-246 skip warning, the (50-character-truncated) title of the line-253
progress status, the title of the line-289 parse warning, and the value of
the `_project_title` metadata field of a successful record. -/
theorem fallback_title_used (pages : List OcrPage) (total idx : Nat)
    (kvs : List (String × Json)) (r : Option Json)
    (hti : lookupKey kvs "Titre" = none) :
    titleOf kvs idx = .str (fallbackTitle idx) ∧
    (candidateFalsyPages (.obj kvs) = true →
      (processCandidate pages total r idx (.obj kvs)).logs =
        [.noPages (.str (fallbackTitle idx))]) ∧
    (candidateFalsyPages (.obj kvs) = false →
      (processCandidate pages total r idx (.obj kvs)).events =
        [(1/2 + (idx : ℚ) * ((2/5) / (total : ℚ)),
          .analyzing idx total (.str ((fallbackTitle idx).take 50)))]) ∧
    (candidateFalsyPages (.obj kvs) = false →
      (∃ pl, clean_pages pages ((lookupKey kvs "PageDebut").getD .null)
        ((lookupKey kvs "PageFin").getD .null) = some pl) →
      r = none →
      (processCandidate pages total r idx (.obj kvs)).logs =
        [.parseError (.str (fallbackTitle idx))]) ∧
    (∀ pkvs : List (String × Json),
      candidateFalsyPages (.obj kvs) = false →
      (∃ pl, clean_pages pages ((lookupKey kvs "PageDebut").getD .null)
        ((lookupKey kvs "PageFin").getD .null) = some pl) →
      (processCandidate pages total (some (.obj pkvs)) idx
        (.obj kvs)).record =
        some (.obj (setKey (setKey (setKey pkvs
          "_project_title" (.str (fallbackTitle idx)))
          "_page_debut" ((lookupKey kvs "PageDebut").getD .null))
          "_page_fin" ((lookupKey kvs "PageFin").getD .null)))) := by
  have hT : titleOf kvs idx = .str (fallbackTitle idx) := by
    unfold titleOf
    rw [hti]
    rfl
  have hcond : candidateFalsyPages (.obj kvs) = false →
      ¬((!pyTruthy ((lookupKey kvs "PageDebut").getD .null) ||
        !pyTruthy ((lookupKey kvs "PageFin").getD .null)) = true) := by
    intro h hcontra
    have h' : (!pyTruthy ((lookupKey kvs "PageDebut").getD .null) ||
        !pyTruthy ((lookupKey kvs "PageFin").getD .null)) = false := h
    rw [hcontra] at h'
    exact Bool.noConfusion h'
  refine ⟨hT, ?_, ?_, ?_, ?_⟩
  · intro hfalsy
    rw [processCandidate_falsy pages total idx r kvs hfalsy, hT]
  · intro hok
    unfold processCandidate
    dsimp only
    rw [if_neg (hcond hok), hT]
    simp only [pySlice50]
    split
    · rfl
    · split <;> rfl
  · intro hok hcp hr
    obtain ⟨pl, hpl⟩ := hcp
    subst hr
    unfold processCandidate
    dsimp only
    rw [if_neg (hcond hok), hT]
    simp only [pySlice50]
    rw [hpl]
  · intro pkvs hok hcp
    obtain ⟨pl, hpl⟩ := hcp
    unfold processCandidate
    dsimp only
    rw [if_neg (hcond hok), hT]
    simp only [pySlice50]
    rw [hpl]

/-- Witness for `fallback_title_used`: a candidate with no `Titre` at
position 4 gets the title `Projet 5`. -/
theorem fallback_title_used_witness :
    titleOf [("PageDebut", Json.num 1), ("PageFin", Json.num 2)] 4 =
      .str "Projet 5" ∧
    (processCandidate [⟨0, "x"⟩, ⟨1, "y"⟩] 5 none 4
      (.obj [("PageDebut", .num 1), ("PageFin", .num 2)])).logs =
      [.parseError (.str "Projet 5")] := by
  have h := fallback_title_used [⟨0, "x"⟩, ⟨1, "y"⟩] 5 4
    [("PageDebut", .num 1), ("PageFin", .num 2)] none rfl
  exact ⟨h.1, h.2.2.2.1 rfl ⟨[(1, "x"), (2, "y")], rfl⟩ rfl⟩

/-! ## Claims C5, C6: run-level success and failure conditions -/

/-- C6: when the list-extraction response is not valid JSON, the run fails
with the line-221 error and zero per-project chat calls are made. -/
theorem list_parse_failure_no_calls (env : Env)
    (h : env.listResponse = none) :
    (parse_pdf_document env).result = .error .listParse ∧
    (parse_pdf_document env).projCalls = 0 := by
  unfold parse_pdf_document
  rw [h]
  exact ⟨rfl, rfl⟩

/-- Witness for `list_parse_failure_no_calls`. -/
theorem list_parse_failure_no_calls_witness :
    (parse_pdf_document ⟨[], none, fun _ => none⟩).result =
      .error .listParse ∧
    (parse_pdf_document ⟨[], none, fun _ => none⟩).projCalls = 0 :=
  list_parse_failure_no_calls ⟨[], none, fun _ => none⟩ rfl

/-- C5: a run returns successfully only with at least one record
(line 296's check), and when the per-project loop produces zero records
the run fails with the line-297 error even though every earlier stage
succeeded. -/
theorem zero_records_failure (env : Env) :
    (∀ rs, (parse_pdf_document env).result = .ok rs → rs ≠ []) ∧
    (∀ pld projectsJ elems,
      env.listResponse = some pld →
      getListe pld = some projectsJ →
      pyTruthy projectsJ = true →
      pyIter projectsJ = some elems →
      stepsRecords (runLoop env.ocrPages env.projResponses
        elems.length 0 elems) = [] →
      (parse_pdf_document env).result = .error .noneAnalyzed) := by
  constructor
  · intro rs hrs
    unfold parse_pdf_document at hrs
    split at hrs
    · simp [failRun] at hrs
    · split at hrs
      · simp [failRun] at hrs
      · split at hrs
        · simp [failRun] at hrs
        · split at hrs
          · simp [failRun] at hrs
          · dsimp only at hrs
            split at hrs
            · simp [failRun] at hrs
            next hne =>
              simp only [Except.ok.injEq] at hrs
              subst hrs
              intro hnil
              exact hne (by rw [hnil]; rfl)
  · intro pld projectsJ elems hl hg ht hi hrec
    simp [parse_pdf_document, hl, hg, ht, hi, hrec, failRun]

/-- Witness for `zero_records_failure`: a run whose only candidate is
dropped fails with the line-297 error; a successful run's record list is
nonempty. -/
theorem zero_records_failure_witness :
    (parse_pdf_document ⟨[], some (.obj [("Liste",
      .arr [.obj [("PageDebut", .num 0), ("PageFin", .num 0)]])]),
      fun _ => none⟩).result = .error .noneAnalyzed ∧
    ([Json.obj [("X", .num 7), ("_project_title", .str "A"),
      ("_page_debut", .num 1), ("_page_fin", .num 3)]] : List Json) ≠ [] := by
  constructor
  · exact (zero_records_failure _).2
      (.obj [("Liste", .arr [.obj [("PageDebut", .num 0),
        ("PageFin", .num 0)]])])
      (.arr [.obj [("PageDebut", .num 0), ("PageFin", .num 0)]])
      [.obj [("PageDebut", .num 0), ("PageFin", .num 0)]]
      rfl rfl rfl rfl rfl
  · exact (zero_records_failure ⟨[⟨0, "p1"⟩, ⟨1, "p2"⟩, ⟨2, "p3"⟩],
      some (.obj [("Liste", .arr [.obj [("Titre", .str "A"),
        ("PageDebut", .num 1), ("PageFin", .num 3)]])]),
      fun _ => some (.obj [("X", .num 7)])⟩).1 _ rfl

/-! ## Claim C3: the payload of the terminal failure event -/

theorem failRun_getLast (evs : List (ℚ × Status)) (logs : List LogEntry)
    (calls : Nat) (e : Err) :
    (failRun evs logs calls e).events.getLast? =
      some ((0 : ℚ), .failed e) :=
  List.getLast?_concat _

/-- Every run whose result is the fatal error `e` is, as a whole, an
aborted run built by the line-305-308 handler for `e`. -/
theorem parse_error_shape (env : Env) (e : Err)
    (h : (parse_pdf_document env).result = .error e) :
    ∃ evs logs calls, parse_pdf_document env = failRun evs logs calls e := by
  revert h
  unfold parse_pdf_document
  split
  · intro h
    rw [show Err.listParse = e from Except.error.inj h]
    exact ⟨_, _, _, rfl⟩
  · split
    · intro h
      rw [show Err.attrGet = e from Except.error.inj h]
      exact ⟨_, _, _, rfl⟩
    · split
      · intro h
        rw [show Err.noProjects = e from Except.error.inj h]
        exact ⟨_, _, _, rfl⟩
      · split
        · intro h
          rw [show Err.lenTypeError = e from Except.error.inj h]
          exact ⟨_, _, _, rfl⟩
        · dsimp only
          split
          · intro h
            rw [show Err.noneAnalyzed = e from Except.error.inj h]
            exact ⟨_, _, _, rfl⟩
          · intro h
            exact absurd h (by simp)

/-- C3 (amended): every run that fails with a fatal error ends its event
stream with the line-307 event, which carries the triggering error's
message together with the progress value `0` — not the progress value
that had been reached at the time of failure. -/
theorem failed_event_carries_zero (env : Env) (e : Err)
    (h : (parse_pdf_document env).result = .error e) :
    (parse_pdf_document env).events.getLast? =
      some ((0 : ℚ), .failed e) := by
  obtain ⟨evs, logs, calls, heq⟩ := parse_error_shape env e h
  rw [heq]
  exact failRun_getLast evs logs calls e

/-- Witness for `failed_event_carries_zero`. -/
theorem failed_event_carries_zero_witness :
    (parse_pdf_document ⟨[], none, fun _ => none⟩).events.getLast? =
      some ((0 : ℚ), .failed .listParse) :=
  failed_event_carries_zero ⟨[], none, fun _ => none⟩ .listParse rfl

/-- C3 (counterexample to the claim as stated): a run that fails while
parsing the list response has already reached progress `0.4`, yet its
terminal failure event carries progress `0`, not `0.4`. -/
theorem failed_event_cex :
    (parse_pdf_document ⟨[], none, fun _ => none⟩).result =
      .error .listParse ∧
    (parse_pdf_document ⟨[], none, fun _ => none⟩).events.map Prod.fst =
      [1/10, 1/5, 3/10, 2/5, 0] ∧
    ((2 : ℚ)/5) ≠ 0 :=
  ⟨rfl, by simp [parse_pdf_document, preEvents, failRun], by norm_num⟩

/-! ## Claim C7: monotone progress on success -/

/-- Each loop iteration emits either no progress event or exactly the
line-251 event at `0.5 + idx * progress_per_project`. -/
theorem processCandidate_events_shape (pages : List OcrPage)
    (total : Nat) (r : Option Json) (idx : Nat) (p : Json) :
    (processCandidate pages total r idx p).events = [] ∨
    ∃ st, (processCandidate pages total r idx p).events =
      [(1/2 + (idx : ℚ) * ((2/5) / (total : ℚ)),
        Status.analyzing idx total st)] := by
  unfold processCandidate
  cases p
  case obj kvs =>
    dsimp only
    split
    · exact Or.inl rfl
    · split
      · exact Or.inl rfl
      · split
        · exact Or.inr ⟨_, rfl⟩
        · split <;> exact Or.inr ⟨_, rfl⟩
  all_goals exact Or.inl rfl

theorem stepsEvents_cons (st : StepOut) (steps : List StepOut) :
    stepsEvents (st :: steps) = st.events ++ stepsEvents steps := by
  simp [stepsEvents]

/-- The progress values emitted by the loop starting at index `i` lie in
`[0.5 + i·δ, 0.5 + (i + len)·δ]` (δ = `0.4 / total` ≥ 0) and are
non-decreasing. -/
theorem loop_events_bounds (pages : List OcrPage)
    (resps : Nat → Option Json) (total : Nat) :
    ∀ (elems : List Json) (i : Nat),
    (∀ q ∈ (stepsEvents (runLoop pages resps total i elems)).map Prod.fst,
      1/2 + (i : ℚ) * ((2/5) / (total : ℚ)) ≤ q ∧
      q ≤ 1/2 + ((i : ℚ) + elems.length) * ((2/5) / (total : ℚ))) ∧
    List.Chain' (· ≤ ·)
      ((stepsEvents (runLoop pages resps total i elems)).map Prod.fst) := by
  have hd : (0 : ℚ) ≤ (2/5) / (total : ℚ) := by positivity
  intro elems
  induction elems with
  | nil => intro i; simp [runLoop, stepsEvents]
  | cons p rest ih =>
    intro i
    have hmono : ∀ a b : ℚ, a ≤ b →
        1/2 + a * ((2/5) / (total : ℚ)) ≤
          1/2 + b * ((2/5) / (total : ℚ)) := fun a b hab => by
      have := mul_le_mul_of_nonneg_right hab hd
      linarith
    have hstep : runLoop pages resps total i (p :: rest) =
        processCandidate pages total (resps i) i p ::
          runLoop pages resps total (i + 1) rest := rfl
    rw [hstep, stepsEvents_cons, List.map_append]
    obtain ⟨ihb, ihc⟩ := ih (i + 1)
    have hlo : ∀ q ∈ (stepsEvents
        (runLoop pages resps total (i + 1) rest)).map Prod.fst,
        1/2 + (i : ℚ) * ((2/5) / (total : ℚ)) ≤ q := by
      intro q hq
      have h1 := (ihb q hq).1
      have h2 : ((i : ℚ)) ≤ ((i + 1 : Nat) : ℚ) := by push_cast; linarith
      exact le_trans (hmono _ _ h2) (by push_cast at h1 ⊢; linarith)
    have hhiu : ((i + 1 : Nat) : ℚ) + (rest.length : ℚ) =
        (i : ℚ) + ((p :: rest).length : ℚ) := by
      simp only [List.length_cons]
      push_cast
      ring
    rcases processCandidate_events_shape pages total (resps i) i p with
      hev | ⟨st, hev⟩
    · rw [hev]
      simp only [List.map_nil, List.nil_append]
      refine ⟨fun q hq => ?_, ihc⟩
      obtain ⟨hq1, hq2⟩ := ihb q hq
      refine ⟨hlo q hq, ?_⟩
      rw [← hhiu]
      push_cast at hq2 ⊢
      linarith
    · rw [hev]
      simp only [List.map_cons, List.map_nil, List.singleton_append]
      constructor
      · intro q hq
        rcases List.mem_cons.mp hq with hq | hq
        · subst hq
          refine ⟨le_refl _, ?_⟩
          have : (i : ℚ) ≤ (i : ℚ) + ((p :: rest).length : ℚ) := by
            have : (0:ℚ) ≤ ((p :: rest).length : ℚ) := by positivity
            linarith
          exact hmono _ _ this
        · obtain ⟨hq1, hq2⟩ := ihb q hq
          refine ⟨hlo q hq, ?_⟩
          rw [← hhiu]
          push_cast at hq2 ⊢
          linarith
      · rw [List.chain'_cons']
        refine ⟨fun y hy => ?_, ihc⟩
        exact hlo y (List.mem_of_mem_head? hy)

/-- Every successful run is, as a whole, the success record of the final
branch of `parse_pdf_document` for some candidate list. -/
theorem parse_ok_shape (env : Env) (rs : List Json)
    (h : (parse_pdf_document env).result = .ok rs) :
    ∃ elems : List Json,
      parse_pdf_document env =
        ⟨(preEvents ++ [(1/2, Status.extracting elems.length)] ++
            stepsEvents (runLoop env.ocrPages env.projResponses
              elems.length 0 elems)) ++
          [(1, Status.finished (stepsRecords (runLoop env.ocrPages
            env.projResponses elems.length 0 elems)).length)],
         stepsLogs (runLoop env.ocrPages env.projResponses
           elems.length 0 elems),
         stepsCalls (runLoop env.ocrPages env.projResponses
           elems.length 0 elems),
         .ok (stepsRecords (runLoop env.ocrPages env.projResponses
           elems.length 0 elems))⟩ := by
  revert h
  unfold parse_pdf_document
  split
  · intro h
    exact absurd h (by simp [failRun])
  · split
    · intro h
      exact absurd h (by simp [failRun])
    · split
      · intro h
        exact absurd h (by simp [failRun])
      · split
        · intro h
          exact absurd h (by simp [failRun])
        next elems heq =>
          dsimp only
          split
          · intro h
            exact absurd h (by simp [failRun])
          · intro _
            exact ⟨elems, rfl⟩

/-- C7: on every successful run the emitted progress values are
non-decreasing, all lie in `[0, 1]`, and the final emitted value is
exactly `1.0`. -/
theorem progress_events_monotone (env : Env) (rs : List Json)
    (h : (parse_pdf_document env).result = .ok rs) :
    List.Chain' (· ≤ ·) ((parse_pdf_document env).events.map Prod.fst) ∧
    (∀ q ∈ (parse_pdf_document env).events.map Prod.fst,
      (0 : ℚ) ≤ q ∧ q ≤ 1) ∧
    ((parse_pdf_document env).events.map Prod.fst).getLast? =
      some (1 : ℚ) := by
  obtain ⟨elems, heq⟩ := parse_ok_shape env rs h
  rw [heq]
  dsimp only
  obtain ⟨hb, hc⟩ := loop_events_bounds env.ocrPages env.projResponses
    elems.length elems 0
  have hub : (elems.length : ℚ) *
      ((2/5) / (elems.length : ℚ)) ≤ 2/5 := by
    rcases Nat.eq_zero_or_pos elems.length with h0 | h0
    · rw [h0]
      norm_num
    · have hn : ((elems.length : ℚ)) ≠ 0 := by
        exact_mod_cast Nat.pos_iff_ne_zero.mp h0
      rw [mul_comm, div_mul_cancel₀ _ hn]
  have hLb : ∀ q ∈ (stepsEvents (runLoop env.ocrPages env.projResponses
      elems.length 0 elems)).map Prod.fst, 1/2 ≤ q ∧ q ≤ 9/10 := by
    intro q hq
    obtain ⟨h1, h2⟩ := hb q hq
    constructor
    · calc (1:ℚ)/2 = 1/2 + (0:ℚ) * ((2/5) / (elems.length : ℚ)) := by ring
      _ ≤ q := by exact_mod_cast h1
    · have h3 : q ≤ 1/2 + ((0:ℚ) + elems.length) *
          ((2/5) / (elems.length : ℚ)) := by exact_mod_cast h2
      have h4 : ((0:ℚ) + elems.length) * ((2/5) / (elems.length : ℚ)) =
          (elems.length : ℚ) * ((2/5) / (elems.length : ℚ)) := by ring
      rw [h4] at h3
      linarith
  have hL1 : ∀ q ∈ (stepsEvents (runLoop env.ocrPages env.projResponses
      elems.length 0 elems)).map Prod.fst ++ [(1:ℚ)],
      1/2 ≤ q ∧ q ≤ 1 := by
    intro q hq
    rcases List.mem_append.mp hq with hq | hq
    · obtain ⟨h1, h2⟩ := hLb q hq
      exact ⟨h1, by linarith⟩
    · rw [List.mem_singleton.mp hq]
      norm_num
  have hM : ((preEvents ++ [((1:ℚ)/2, Status.extracting elems.length)] ++
      stepsEvents (runLoop env.ocrPages env.projResponses
        elems.length 0 elems)) ++
      [((1:ℚ), Status.finished (stepsRecords (runLoop env.ocrPages
        env.projResponses elems.length 0 elems)).length)]).map Prod.fst =
      (1/10 : ℚ) :: (1/5 : ℚ) :: (3/10 : ℚ) :: (2/5 : ℚ) :: (1/2 : ℚ) ::
        ((stepsEvents (runLoop env.ocrPages env.projResponses
          elems.length 0 elems)).map Prod.fst ++ [(1:ℚ)]) := by
    simp [preEvents]
  rw [hM]
  have hchainL1 : List.Chain' (· ≤ ·)
      ((stepsEvents (runLoop env.ocrPages env.projResponses
        elems.length 0 elems)).map Prod.fst ++ [(1:ℚ)]) := by
    rw [List.chain'_append]
    refine ⟨hc, List.chain'_singleton _, ?_⟩
    intro x hx y hy
    simp only [List.head?_cons, Option.mem_def, Option.some.injEq] at hy
    subst hy
    have hxm : x ∈ (stepsEvents (runLoop env.ocrPages env.projResponses
        elems.length 0 elems)).map Prod.fst :=
      List.mem_of_mem_getLast? hx
    linarith [(hLb x hxm).2]
  refine ⟨?_, ?_, ?_⟩
  · refine List.chain'_cons.mpr ⟨by norm_num, ?_⟩
    refine List.chain'_cons.mpr ⟨by norm_num, ?_⟩
    refine List.chain'_cons.mpr ⟨by norm_num, ?_⟩
    refine List.chain'_cons.mpr ⟨by norm_num, ?_⟩
    refine List.chain'_cons'.mpr ⟨?_, hchainL1⟩
    intro y hy
    exact (hL1 y (List.mem_of_mem_head? hy)).1
  · intro q hq
    simp only [List.mem_cons] at hq
    rcases hq with rfl | rfl | rfl | rfl | rfl | hq
    · norm_num
    · norm_num
    · norm_num
    · norm_num
    · norm_num
    · obtain ⟨h1, h2⟩ := hL1 q hq
      exact ⟨by linarith, h2⟩
  · show ((1/10 : ℚ) :: (1/5 : ℚ) :: (3/10 : ℚ) :: (2/5 : ℚ) ::
      (1/2 : ℚ) :: ((stepsEvents (runLoop env.ocrPages env.projResponses
        elems.length 0 elems)).map Prod.fst ++ [(1:ℚ)])).getLast? =
      some (1 : ℚ)
    rw [show (1/10 : ℚ) :: (1/5 : ℚ) :: (3/10 : ℚ) :: (2/5 : ℚ) ::
      (1/2 : ℚ) :: ((stepsEvents (runLoop env.ocrPages env.projResponses
        elems.length 0 elems)).map Prod.fst ++ [(1:ℚ)]) =
      ((1/10 : ℚ) :: (1/5 : ℚ) :: (3/10 : ℚ) :: (2/5 : ℚ) ::
        (1/2 : ℚ) :: (stepsEvents (runLoop env.ocrPages env.projResponses
          elems.length 0 elems)).map Prod.fst) ++ [(1:ℚ)] from by simp]
    exact List.getLast?_concat _

/-- Witness for `progress_events_monotone`: a successful one-candidate
run. -/
theorem progress_events_monotone_witness :
    List.Chain' (· ≤ ·) ((parse_pdf_document ⟨[⟨0, "p1"⟩, ⟨1, "p2"⟩,
      ⟨2, "p3"⟩], some (.obj [("Liste", .arr [.obj [("Titre", .str "A"),
      ("PageDebut", .num 1), ("PageFin", .num 3)]])]),
      fun _ => some (.obj [("X", .num 7)])⟩).events.map Prod.fst) ∧
    (∀ q ∈ (parse_pdf_document ⟨[⟨0, "p1"⟩, ⟨1, "p2"⟩,
      ⟨2, "p3"⟩], some (.obj [("Liste", .arr [.obj [("Titre", .str "A"),
      ("PageDebut", .num 1), ("PageFin", .num 3)]])]),
      fun _ => some (.obj [("X", .num 7)])⟩).events.map Prod.fst,
      (0 : ℚ) ≤ q ∧ q ≤ 1) ∧
    ((parse_pdf_document ⟨[⟨0, "p1"⟩, ⟨1, "p2"⟩,
      ⟨2, "p3"⟩], some (.obj [("Liste", .arr [.obj [("Titre", .str "A"),
      ("PageDebut", .num 1), ("PageFin", .num 3)]])]),
      fun _ => some (.obj [("X", .num 7)])⟩).events.map Prod.fst).getLast? =
      some (1 : ℚ) :=
  progress_events_monotone _
    [.obj [("X", .num 7), ("_project_title", .str "A"),
      ("_page_debut", .num 1), ("_page_fin", .num 3)]] rfl

/-! ## Claim C9: wire round-trip of the normalized document

`clean_document` returns `json.dumps(transformed, indent=2)` (line 99).
The serialization below models CPython's `json.dumps` with its default
`ensure_ascii=True` (every non-ASCII character escaped as `\uXXXX`,
astral characters as a surrogate pair) and `indent=2`, at the level of
Unicode code points (`List Nat`).  The parse-back direction models
`json.loads` on the payload shape `{"pages": [{"page_number": _,
"content": _}, ...]}`, including `\uXXXX` decoding and surrogate-pair
recombination. -/

/-- Lowercase hex digit, as CPython's `%04x` formatting uses. -/
def hexDig (d : Nat) : Nat := if d < 10 then 48 + d else 87 + d

/-- The four hex digits of `n < 0x10000`, most significant first. -/
def hex4 (n : Nat) : List Nat :=
  [hexDig (n / 4096 % 16), hexDig (n / 256 % 16),
   hexDig (n / 16 % 16), hexDig (n % 16)]

/-- CPython `py_encode_basestring_ascii` escaping of one code point:
`\"` and `\\`, the five short control escapes, printable ASCII kept
as is, every other BMP code point as `\uXXXX`, astral code points as a
`\uXXXX\uXXXX` surrogate pair. -/
def escChar (c : Nat) : List Nat :=
  if c = 34 then [92, 34]
  else if c = 92 then [92, 92]
  else if c = 8 then [92, 98]
  else if c = 9 then [92, 116]
  else if c = 10 then [92, 110]
  else if c = 12 then [92, 102]
  else if c = 13 then [92, 114]
  else if 32 ≤ c ∧ c ≤ 126 then [c]
  else if c < 65536 then 92 :: 117 :: hex4 c
  else (92 :: 117 :: hex4 (55296 + (c - 65536) / 1024)) ++
       (92 :: 117 :: hex4 (56320 + (c - 65536) % 1024))

/-- The escaped body of a JSON string literal. -/
def encStr (cs : List Nat) : List Nat := (cs.map escChar).flatten

/-- Value of one hex digit (0-9, a-f, A-F). -/
def hexVal (c : Nat) : Option Nat :=
  if 48 ≤ c ∧ c ≤ 57 then some (c - 48)
  else if 97 ≤ c ∧ c ≤ 102 then some (c - 87)
  else if 65 ≤ c ∧ c ≤ 70 then some (c - 55)
  else none

/-- Value of a 4-hex-digit escape. -/
def hex4Val (a b c d : Nat) : Option Nat :=
  match hexVal a, hexVal b, hexVal c, hexVal d with
  | some w, some x, some y, some z =>
    some (w * 4096 + x * 256 + y * 16 + z)
  | _, _, _, _ => none

/-- The single-character escapes `json.loads` accepts after a backslash. -/
def escDecode (e : Nat) : Option Nat :=
  if e = 34 then some 34
  else if e = 92 then some 92
  else if e = 47 then some 47
  else if e = 98 then some 8
  else if e = 102 then some 12
  else if e = 110 then some 10
  else if e = 114 then some 13
  else if e = 116 then some 9
  else none

/-- One element of a JSON string literal body, modelling `json.loads`'s
scanner after the opening quote: `some (none, rest)` when the closing
quote is reached, `some (some c, rest)` for one decoded code point
(strict mode: raw control characters rejected; a high-surrogate escape
must be followed by a low-surrogate escape and the pair is recombined
into one astral code point). -/
def pChar : List Nat → Option (Option Nat × List Nat)
  | [] => none
  | c :: rest =>
    if c = 34 then some (none, rest)
    else if c = 92 then
      match rest with
      | [] => none
      | e :: rest2 =>
        if e = 117 then
          match rest2 with
          | a :: b :: c2 :: d :: rest3 =>
            match hex4Val a b c2 d with
            | none => none
            | some v =>
              if v < 55296 ∨ 57343 < v then some (some v, rest3)
              else if v ≤ 56319 then
                match rest3 with
                | x :: y :: a2 :: b2 :: c3 :: d2 :: rest4 =>
                  if x = 92 ∧ y = 117 then
                    match hex4Val a2 b2 c3 d2 with
                    | none => none
                    | some w =>
                      if 56320 ≤ w ∧ w ≤ 57343 then
                        some (some (65536 + (v - 55296) * 1024 +
                          (w - 56320)), rest4)
                      else none
                  else none
                | _ => none
              else none
          | _ => none
        else
          match escDecode e with
          | none => none
          | some x => some (some x, rest2)
    else if c < 32 then none
    else some (some c, rest)

/-- The string-literal body loop (`fuel` bounds the number of decoded
code points). -/
def pStrAux : Nat → List Nat → Option (List Nat × List Nat)
  | 0, _ => none
  | fuel + 1, l =>
    match pChar l with
    | none => none
    | some (none, rest) => some ([], rest)
    | some (some c, rest) =>
      (pStrAux fuel rest).map fun pr => (c :: pr.1, pr.2)

/-- JSON string-literal body reader: the decoded code points and the
input after the closing quote. -/
def pStr (l : List Nat) : Option (List Nat × List Nat) :=
  pStrAux l.length l

/-- A newline followed by `k` spaces (the `indent=2` layout). -/
def nlsp (k : Nat) : List Nat := 10 :: List.replicate k 32

/-- The code points of `pages`. -/
def keyPagesCodes : List Nat := [112, 97, 103, 101, 115]

/-- The code points of `page_number`. -/
def keyPageNumberCodes : List Nat :=
  [112, 97, 103, 101, 95, 110, 117, 109, 98, 101, 114]

/-- The code points of `content`. -/
def keyContentCodes : List Nat := [99, 111, 110, 116, 101, 110, 116]

/-- Decimal digits of `n`, least significant first. -/
def decDigitsRev : Nat → List Nat
  | 0 => []
  | n + 1 => (48 + (n + 1) % 10) :: decDigitsRev ((n + 1) / 10)
decreasing_by exact Nat.div_lt_self (Nat.succ_pos n) (by norm_num)

/-- Decimal representation of `n`, as CPython prints an `int`. -/
def decRepr (n : Nat) : List Nat :=
  if n = 0 then [48] else (decDigitsRev n).reverse

/-- One page object of the wire payload, exactly as
`json.dumps(..., indent=2)` lays it out at nesting depth 2. -/
def serPage (pg : Nat × List Nat) : List Nat :=
  [123] ++ nlsp 6 ++ [34] ++ keyPageNumberCodes ++ [34, 58, 32] ++
  decRepr pg.1 ++ [44] ++ nlsp 6 ++ [34] ++ keyContentCodes ++
  [34, 58, 32, 34] ++ encStr pg.2 ++ [34] ++ nlsp 4 ++ [125]

/-- The `", "`-free item separator of the page array: a comma, then a
newline and the depth-1 indent (as `json.dumps(..., indent=2)` writes
before each subsequent array item). -/
def serPagesTail : List (Nat × List Nat) → List Nat
  | [] => []
  | pg :: rest => [44] ++ nlsp 4 ++ serPage pg ++ serPagesTail rest

/-- The items of the page array, separated as `json.dumps` writes them. -/
def serPagesAll : List (Nat × List Nat) → List Nat
  | [] => []
  | pg :: rest => serPage pg ++ serPagesTail rest

/-- The full wire payload `{"pages": [...]}` of `clean_document` /
`clean_pages`, exactly as `json.dumps(transformed, indent=2)` renders it
(an empty list is rendered inline as `[]`). -/
def dumpsPayload (pgs : List (Nat × List Nat)) : List Nat :=
  [123] ++ nlsp 2 ++ [34] ++ keyPagesCodes ++ [34, 58, 32] ++
  (if pgs.isEmpty then [91, 93]
   else [91] ++ nlsp 4 ++ serPagesAll pgs ++ nlsp 2 ++ [93]) ++
  nlsp 0 ++ [125]

/-- JSON insignificant whitespace skipping, as `json.loads` does between
tokens. -/
def skipWs : List Nat → List Nat
  | [] => []
  | c :: rest =>
    if c = 32 ∨ c = 9 ∨ c = 10 ∨ c = 13 then skipWs rest else c :: rest

/-- Consume one expected code point. -/
def expectChar (c : Nat) : List Nat → Option (List Nat)
  | [] => none
  | d :: rest => if d = c then some rest else none

/-- Parse a JSON string literal and require it to be the object key
`key`. -/
def parseKey (key : List Nat) (l : List Nat) : Option (List Nat) := do
  let r1 ← expectChar 34 l
  let (s, r2) ← pStr r1
  if s = key then pure r2 else none

/-- Greedy decimal digit run with accumulator. -/
def parseDigits (acc : Nat) : List Nat → Nat × List Nat
  | [] => (acc, [])
  | c :: rest =>
    if 48 ≤ c ∧ c ≤ 57 then parseDigits (acc * 10 + (c - 48)) rest
    else (acc, c :: rest)

/-- Parse a (non-negative) JSON number token. -/
def parseNatTok : List Nat → Option (Nat × List Nat)
  | [] => none
  | c :: rest =>
    if 48 ≤ c ∧ c ≤ 57 then some (parseDigits (c - 48) rest) else none

/-- Parse one `{"page_number": N, "content": "..."}` object. -/
def parsePageObj (l : List Nat) : Option ((Nat × List Nat) × List Nat) := do
  let r1 ← expectChar 123 (skipWs l)
  let r2 ← parseKey keyPageNumberCodes (skipWs r1)
  let r3 ← expectChar 58 (skipWs r2)
  let (n, r4) ← parseNatTok (skipWs r3)
  let r5 ← expectChar 44 (skipWs r4)
  let r6 ← parseKey keyContentCodes (skipWs r5)
  let r7 ← expectChar 58 (skipWs r6)
  let r8 ← expectChar 34 (skipWs r7)
  let (s, r9) ← pStr r8
  let r10 ← expectChar 125 (skipWs r9)
  pure ((n, s), r10)

/-- After one array item: either the closing bracket or a comma and a
further item (`fuel` bounds the number of items). -/
def parsePagesMore (fuel : Nat) (l : List Nat) :
    Option (List (Nat × List Nat) × List Nat) :=
  match fuel with
  | 0 => none
  | fuel + 1 =>
    match skipWs l with
    | [] => none
    | c :: r =>
      if c = 93 then some ([], r)
      else if c = 44 then
        match parsePageObj r with
        | none => none
        | some (pg, r2) =>
          match parsePagesMore fuel r2 with
          | none => none
          | some (pgs, r3) => some (pg :: pgs, r3)
      else none

/-- The page array: `[]` or `[` item (`,` item)* `]`. -/
def parsePagesArr (fuel : Nat) (l : List Nat) :
    Option (List (Nat × List Nat) × List Nat) :=
  match expectChar 91 (skipWs l) with
  | none => none
  | some r =>
    match skipWs r with
    | [] => none
    | c :: r2 =>
      if c = 93 then some ([], r2)
      else
        match parsePageObj (c :: r2) with
        | none => none
        | some (pg, r3) =>
          match parsePagesMore fuel r3 with
          | none => none
          | some (pgs, r4) => some (pg :: pgs, r4)

/-- Parse the whole wire payload back: `{"pages": [...]}` with nothing but
whitespace after it, returning the `(page_number, content)` pairs. -/
def parsePayload (l : List Nat) : Option (List (Nat × List Nat)) := do
  let r1 ← expectChar 123 (skipWs l)
  let r2 ← parseKey keyPagesCodes (skipWs r1)
  let r3 ← expectChar 58 (skipWs r2)
  let (pgs, r4) ← parsePagesArr l.length r3
  let r5 ← expectChar 125 (skipWs r4)
  if (skipWs r5).isEmpty then pure pgs else none

/-- The code points of a Lean string (Unicode scalar values, exactly the
code points of the corresponding Python `str`). -/
def strCodes (s : String) : List Nat := s.data.map Char.toNat

/-- The wire-level `(page_number, content)` pairs of the `transformed`
dict of `clean_document` (line 89-97). -/
def cleanDocumentPairsWire (pages : List OcrPage) : List (Nat × List Nat) :=
  pages.map fun p => (p.index + 1, strCodes p.markdown)

/-- The JSON text returned by `clean_document` (line 99), as code
points. -/
def clean_document_wire (pages : List OcrPage) : List Nat :=
  dumpsPayload (cleanDocumentPairsWire pages)


theorem skipWs_cons_ws (c : Nat) (h : c = 32 ∨ c = 9 ∨ c = 10 ∨ c = 13)
    (l : List Nat) : skipWs (c :: l) = skipWs l := by
  rw [show skipWs (c :: l) =
    if c = 32 ∨ c = 9 ∨ c = 10 ∨ c = 13 then skipWs l else c :: l from rfl]
  rw [if_pos h]

theorem skipWs_cons_not (c : Nat)
    (h : ¬(c = 32 ∨ c = 9 ∨ c = 10 ∨ c = 13)) (l : List Nat) :
    skipWs (c :: l) = c :: l := by
  rw [show skipWs (c :: l) =
    if c = 32 ∨ c = 9 ∨ c = 10 ∨ c = 13 then skipWs l else c :: l from rfl]
  rw [if_neg h]

theorem skipWs_replicate32 : ∀ (k : Nat) (l : List Nat),
    skipWs (List.replicate k 32 ++ l) = skipWs l := by
  intro k
  induction k with
  | zero => intro l; rfl
  | succ k ih =>
    intro l
    rw [List.replicate_succ, List.cons_append,
      skipWs_cons_ws 32 (Or.inl rfl), ih]

theorem skipWs_nlsp (k : Nat) (l : List Nat) :
    skipWs (nlsp k ++ l) = skipWs l := by
  unfold nlsp
  rw [List.cons_append, skipWs_cons_ws 10 (by norm_num), skipWs_replicate32]

theorem hexVal_hexDig (d : Nat) (h : d < 16) :
    hexVal (hexDig d) = some d := by
  unfold hexVal hexDig
  by_cases h10 : d < 10
  · rw [if_pos h10, if_pos (by omega)]
    congr 1
    omega
  · rw [if_neg h10, if_neg (by omega), if_pos (by omega)]
    congr 1
    omega

theorem hex4Val_hex4 (n : Nat) (h : n < 65536) :
    hex4Val (hexDig (n / 4096 % 16)) (hexDig (n / 256 % 16))
      (hexDig (n / 16 % 16)) (hexDig (n % 16)) = some n := by
  unfold hex4Val
  rw [hexVal_hexDig _ (by omega), hexVal_hexDig _ (by omega),
    hexVal_hexDig _ (by omega), hexVal_hexDig _ (by omega)]
  dsimp only
  congr 1
  omega

theorem pChar_quote (l : List Nat) : pChar (34 :: l) = some (none, l) := by
  unfold pChar
  try dsimp only
  rw [if_pos rfl]

theorem pChar_plain (c : Nat) (h1 : c ≠ 34) (h2 : c ≠ 92)
    (h3 : ¬(c < 32)) (l : List Nat) :
    pChar (c :: l) = some (some c, l) := by
  unfold pChar
  try dsimp only
  rw [if_neg h1, if_neg h2, if_neg h3]

theorem pChar_esc (e x : Nat) (he : escDecode e = some x) (hne : e ≠ 117)
    (l : List Nat) : pChar (92 :: e :: l) = some (some x, l) := by
  unfold pChar
  try dsimp only
  rw [if_neg (by norm_num), if_pos rfl]
  try dsimp only
  rw [if_neg hne, he]

theorem pChar_u (a b c2 d v : Nat) (hv : hex4Val a b c2 d = some v)
    (hval : v < 55296 ∨ 57343 < v) (l : List Nat) :
    pChar (92 :: 117 :: a :: b :: c2 :: d :: l) = some (some v, l) := by
  unfold pChar
  try dsimp only
  rw [if_neg (by norm_num), if_pos rfl]
  try dsimp only
  rw [if_pos rfl, hv]
  try dsimp only
  rw [if_pos hval]

theorem pChar_pair (a b c2 d a2 b2 c3 d2 v w : Nat)
    (hv : hex4Val a b c2 d = some v) (hw : hex4Val a2 b2 c3 d2 = some w)
    (hvr : 55296 ≤ v ∧ v ≤ 56319) (hwr : 56320 ≤ w ∧ w ≤ 57343)
    (l : List Nat) :
    pChar (92 :: 117 :: a :: b :: c2 :: d ::
           92 :: 117 :: a2 :: b2 :: c3 :: d2 :: l) =
      some (some (65536 + (v - 55296) * 1024 + (w - 56320)), l) := by
  unfold pChar
  try dsimp only
  rw [if_neg (by norm_num), if_pos rfl]
  try dsimp only
  rw [if_pos rfl, hv]
  try dsimp only
  rw [if_neg (by omega), if_pos (by omega)]
  try dsimp only
  rw [if_pos ⟨rfl, rfl⟩, hw]
  try dsimp only
  rw [if_pos hwr]

/-- The decoder inverts the CPython escaping of any valid Unicode scalar
value (surrogates are not scalar values). -/
theorem pChar_escChar (c : Nat)
    (h : c < 55296 ∨ (57343 < c ∧ c < 1114112)) (l : List Nat) :
    pChar (escChar c ++ l) = some (some c, l) := by
  unfold escChar
  by_cases h34 : c = 34
  · subst h34
    rw [if_pos rfl]
    exact pChar_esc 34 34 rfl (by norm_num) l
  rw [if_neg h34]
  by_cases h92 : c = 92
  · subst h92
    rw [if_pos rfl]
    exact pChar_esc 92 92 rfl (by norm_num) l
  rw [if_neg h92]
  by_cases h8 : c = 8
  · subst h8
    rw [if_pos rfl]
    exact pChar_esc 98 8 rfl (by norm_num) l
  rw [if_neg h8]
  by_cases h9 : c = 9
  · subst h9
    rw [if_pos rfl]
    exact pChar_esc 116 9 rfl (by norm_num) l
  rw [if_neg h9]
  by_cases h10 : c = 10
  · subst h10
    rw [if_pos rfl]
    exact pChar_esc 110 10 rfl (by norm_num) l
  rw [if_neg h10]
  by_cases h12 : c = 12
  · subst h12
    rw [if_pos rfl]
    exact pChar_esc 102 12 rfl (by norm_num) l
  rw [if_neg h12]
  by_cases h13 : c = 13
  · subst h13
    rw [if_pos rfl]
    exact pChar_esc 114 13 rfl (by norm_num) l
  rw [if_neg h13]
  by_cases hpr : 32 ≤ c ∧ c ≤ 126
  · rw [if_pos hpr]
    exact pChar_plain c h34 h92 (by omega) l
  rw [if_neg hpr]
  by_cases hbmp : c < 65536
  · rw [if_pos hbmp]
    unfold hex4
    exact pChar_u _ _ _ _ c (hex4Val_hex4 c hbmp) (by omega) l
  · rw [if_neg hbmp]
    unfold hex4
    rw [List.append_assoc]
    have hpair := pChar_pair
      (hexDig ((55296 + (c - 65536) / 1024) / 4096 % 16))
      (hexDig ((55296 + (c - 65536) / 1024) / 256 % 16))
      (hexDig ((55296 + (c - 65536) / 1024) / 16 % 16))
      (hexDig ((55296 + (c - 65536) / 1024) % 16))
      (hexDig ((56320 + (c - 65536) % 1024) / 4096 % 16))
      (hexDig ((56320 + (c - 65536) % 1024) / 256 % 16))
      (hexDig ((56320 + (c - 65536) % 1024) / 16 % 16))
      (hexDig ((56320 + (c - 65536) % 1024) % 16))
      (55296 + (c - 65536) / 1024) (56320 + (c - 65536) % 1024)
      (hex4Val_hex4 _ (by omega)) (hex4Val_hex4 _ (by omega))
      (by omega) (by omega) l
    rw [show (65536 + (55296 + (c - 65536) / 1024 - 55296) * 1024 +
        (56320 + (c - 65536) % 1024 - 56320)) = c from by omega] at hpair
    exact hpair

theorem encStr_cons (c : Nat) (cs : List Nat) :
    encStr (c :: cs) = escChar c ++ encStr cs := by
  simp [encStr]

theorem encStr_length (cs : List Nat) : cs.length ≤ (encStr cs).length := by
  induction cs with
  | nil => simp [encStr]
  | cons c rest ih =>
    rw [encStr_cons, List.length_append, List.length_cons]
    have hpos : 0 < (escChar c).length := by
      unfold escChar hex4
      repeat' split
      all_goals simp
    omega

theorem pStrAux_enc : ∀ (cs : List Nat) (fuel : Nat) (l : List Nat),
    cs.length < fuel →
    (∀ c ∈ cs, c < 55296 ∨ (57343 < c ∧ c < 1114112)) →
    pStrAux fuel (encStr cs ++ 34 :: l) = some (cs, l) := by
  intro cs
  induction cs with
  | nil =>
    intro fuel l hf _
    match fuel, hf with
    | fuel + 1, _ =>
      show pStrAux (fuel + 1) (encStr [] ++ 34 :: l) = some ([], l)
      rw [show encStr [] = [] from rfl, List.nil_append]
      unfold pStrAux
      rw [pChar_quote]
  | cons c rest ih =>
    intro fuel l hf hv
    match fuel, hf with
    | fuel + 1, hf2 =>
      rw [encStr_cons, List.append_assoc]
      unfold pStrAux
      rw [pChar_escChar c (hv c (List.mem_cons_self c rest)) _]
      dsimp only
      rw [ih fuel l (by simp only [List.length_cons] at hf2; omega)
        (fun d hd => hv d (List.mem_cons_of_mem c hd))]
      rfl

/-- The decoder inverts the CPython string-literal escaping. -/
theorem pStr_enc (cs : List Nat) (l : List Nat)
    (hv : ∀ c ∈ cs, c < 55296 ∨ (57343 < c ∧ c < 1114112)) :
    pStr (encStr cs ++ 34 :: l) = some (cs, l) := by
  unfold pStr
  apply pStrAux_enc cs _ l _ hv
  have h1 := encStr_length cs
  simp only [List.length_append, List.length_cons]
  omega

theorem decDigitsRev_digits : ∀ n : Nat, ∀ d ∈ decDigitsRev n,
    48 ≤ d ∧ d ≤ 57 := by
  intro n
  induction n using Nat.strong_induction_on with
  | _ n ih =>
    match n with
    | 0 => simp [decDigitsRev]
    | m + 1 =>
      intro d hd
      rw [decDigitsRev] at hd
      rcases List.mem_cons.mp hd with rfl | hd
      · omega
      · exact ih ((m + 1) / 10)
          (Nat.div_lt_self (Nat.succ_pos m) (by norm_num)) d hd

theorem foldl_decDigitsRev : ∀ n : Nat, ∀ acc : Nat,
    ((decDigitsRev n).reverse).foldl (fun a d => a * 10 + (d - 48)) acc =
      acc * 10 ^ (decDigitsRev n).length + n := by
  intro n
  induction n using Nat.strong_induction_on with
  | _ n ih =>
    match n with
    | 0 => intro acc; simp [decDigitsRev]
    | m + 1 =>
      intro acc
      rw [decDigitsRev, List.reverse_cons, List.foldl_append,
        ih ((m + 1) / 10)
          (Nat.div_lt_self (Nat.succ_pos m) (by norm_num)) acc,
        List.length_cons]
      simp only [List.foldl_cons, List.foldl_nil]
      rw [pow_succ]
      have h1 : 48 + (m + 1) % 10 - 48 = (m + 1) % 10 := by omega
      rw [h1]
      have h2 : (m + 1) / 10 * 10 + (m + 1) % 10 = m + 1 := by omega
      ring_nf
      omega

theorem parseDigits_append : ∀ (ds : List Nat) (acc : Nat) (l : List Nat),
    (∀ d ∈ ds, 48 ≤ d ∧ d ≤ 57) →
    (∀ c ∈ l.head?, ¬(48 ≤ c ∧ c ≤ 57)) →
    parseDigits acc (ds ++ l) =
      (ds.foldl (fun a d => a * 10 + (d - 48)) acc, l) := by
  intro ds
  induction ds with
  | nil =>
    intro acc l _ hl
    simp only [List.nil_append, List.foldl_nil]
    match l with
    | [] => rfl
    | c :: r =>
      have hc := hl c (by simp)
      unfold parseDigits
      try dsimp only
      rw [if_neg hc]
  | cons d rest ih =>
    intro acc l hds hl
    rw [List.cons_append]
    unfold parseDigits
    try dsimp only
    rw [if_pos (hds d (List.mem_cons_self d rest)), List.foldl_cons]
    exact ih _ l (fun x hx => hds x (List.mem_cons_of_mem d hx)) hl

theorem decRepr_head (n : Nat) : ∃ d ds, decRepr n = d :: ds ∧
    48 ≤ d ∧ d ≤ 57 := by
  unfold decRepr
  by_cases h0 : n = 0
  · exact ⟨48, [], by rw [if_pos h0], by omega, by omega⟩
  · rw [if_neg h0]
    match hrev : (decDigitsRev n).reverse with
    | [] =>
      exfalso
      have : decDigitsRev n = [] := by
        simpa using congrArg List.reverse hrev
      match n, h0 with
      | m + 1, _ =>
        rw [decDigitsRev] at this
        exact List.noConfusion this
    | d :: ds =>
      refine ⟨d, ds, rfl, ?_⟩
      have hd : d ∈ decDigitsRev n := by
        have : d ∈ (decDigitsRev n).reverse := by rw [hrev]; simp
        simpa using this
      exact decDigitsRev_digits n d hd

theorem parseNatTok_decRepr (n : Nat) (l : List Nat)
    (hl : ∀ c ∈ l.head?, ¬(48 ≤ c ∧ c ≤ 57)) :
    parseNatTok (decRepr n ++ l) = some (n, l) := by
  by_cases h0 : n = 0
  · subst h0
    rw [show decRepr 0 = [48] from rfl, List.cons_append, List.nil_append]
    unfold parseNatTok
    try dsimp only
    rw [if_pos (by omega)]
    have h := parseDigits_append [] (48 - 48) l (by simp) hl
    rw [List.nil_append] at h
    rw [h]
    rfl
  · have hrepr : decRepr n = (decDigitsRev n).reverse := by
      unfold decRepr
      rw [if_neg h0]
    obtain ⟨d, ds, hD, hd1, hd2⟩ := decRepr_head n
    have hds : ∀ x ∈ ds, 48 ≤ x ∧ x ≤ 57 := by
      intro x hx
      have : x ∈ decDigitsRev n := by
        have : x ∈ (decDigitsRev n).reverse := by
          rw [← hrepr, hD]
          exact List.mem_cons_of_mem d hx
        simpa using this
      exact decDigitsRev_digits n x this
    rw [hD, List.cons_append]
    unfold parseNatTok
    try dsimp only
    rw [if_pos ⟨hd1, hd2⟩,
      parseDigits_append ds (d - 48) l hds hl]
    have hfold := foldl_decDigitsRev n 0
    rw [← hrepr, hD, List.foldl_cons] at hfold
    simp only [Nat.zero_mul, Nat.zero_add] at hfold
    rw [hfold]

theorem skipWs_decRepr (n : Nat) (l : List Nat) :
    skipWs (decRepr n ++ l) = decRepr n ++ l := by
  obtain ⟨d, ds, hD, hd1, hd2⟩ := decRepr_head n
  rw [hD, List.cons_append, skipWs_cons_not d (by omega)]

theorem opt_bind_some {α β : Type} (x : α) (f : α → Option β) :
    Bind.bind (some x) f = f x := rfl

theorem expectChar_cons (c : Nat) (l : List Nat) :
    expectChar c (c :: l) = some l := by
  unfold expectChar
  try dsimp only
  rw [if_pos rfl]

theorem parseKey_enc (key : List Nat) (hk : encStr key = key)
    (hv : ∀ c ∈ key, c < 55296 ∨ (57343 < c ∧ c < 1114112)) (l : List Nat) :
    parseKey key (34 :: (key ++ 34 :: l)) = some l := by
  have hps := pStr_enc key l hv
  rw [hk] at hps
  unfold parseKey
  rw [expectChar_cons, opt_bind_some, hps, opt_bind_some]
  dsimp only
  rw [if_pos rfl]
  rfl

theorem parsePageObj_nlsp (k : Nat) (l : List Nat) :
    parsePageObj (nlsp k ++ l) = parsePageObj l := by
  unfold parsePageObj
  rw [skipWs_nlsp]

theorem parsePageObj_ser (pg : Nat × List Nat)
    (hv : ∀ c ∈ pg.2, c < 55296 ∨ (57343 < c ∧ c < 1114112))
    (l : List Nat) :
    parsePageObj (serPage pg ++ l) = some (pg, l) := by
  have sk123 : ∀ X : List Nat, skipWs (123 :: X) = 123 :: X :=
    fun X => skipWs_cons_not 123 (by norm_num) X
  have sk34 : ∀ X : List Nat, skipWs (34 :: X) = 34 :: X :=
    fun X => skipWs_cons_not 34 (by norm_num) X
  have sk58 : ∀ X : List Nat, skipWs (58 :: X) = 58 :: X :=
    fun X => skipWs_cons_not 58 (by norm_num) X
  have sk44 : ∀ X : List Nat, skipWs (44 :: X) = 44 :: X :=
    fun X => skipWs_cons_not 44 (by norm_num) X
  have sk125 : ∀ X : List Nat, skipWs (125 :: X) = 125 :: X :=
    fun X => skipWs_cons_not 125 (by norm_num) X
  have sk32 : ∀ X : List Nat, skipWs (32 :: X) = skipWs X :=
    fun X => skipWs_cons_ws 32 (by norm_num) X
  have hk1 : ∀ C : List Nat, parseKey keyPageNumberCodes
      (34 :: (keyPageNumberCodes ++ 34 :: C)) = some C :=
    fun C => parseKey_enc keyPageNumberCodes (by decide) (by decide) C
  have hk2 : ∀ C : List Nat, parseKey keyContentCodes
      (34 :: (keyContentCodes ++ 34 :: C)) = some C :=
    fun C => parseKey_enc keyContentCodes (by decide) (by decide) C
  have hnum : ∀ E : List Nat,
      parseNatTok (decRepr pg.1 ++ 44 :: E) = some (pg.1, 44 :: E) :=
    fun E => parseNatTok_decRepr pg.1 (44 :: E) (by
      intro c hc
      simp only [List.head?_cons, Option.mem_def, Option.some.injEq] at hc
      omega)
  have hps : ∀ I : List Nat,
      pStr (encStr pg.2 ++ 34 :: I) = some (pg.2, I) :=
    fun I => pStr_enc pg.2 I hv
  simp only [serPage, List.append_assoc, List.cons_append,
    List.nil_append, parsePageObj, skipWs_nlsp, sk123, sk34, sk58, sk44,
    sk125, sk32, expectChar_cons, Option.some_bind, opt_bind_some, hk1,
    hk2, skipWs_decRepr, hnum, hps]
  rfl

theorem serPage_cons_shape (pg : Nat × List Nat) (R : List Nat) :
    serPage pg ++ R = 123 ::
      ((nlsp 6 ++ [34] ++ keyPageNumberCodes ++ [34, 58, 32] ++
        decRepr pg.1 ++ [44] ++ nlsp 6 ++ [34] ++ keyContentCodes ++
        [34, 58, 32, 34] ++ encStr pg.2 ++ [34] ++ nlsp 4 ++ [125]) ++
        R) := by
  simp [serPage, List.cons_append, List.append_assoc]

theorem parsePagesMore_ser :
    ∀ (rest : List (Nat × List Nat)) (fuel : Nat) (l : List Nat),
    rest.length < fuel →
    (∀ pg ∈ rest, ∀ c ∈ pg.2, c < 55296 ∨ (57343 < c ∧ c < 1114112)) →
    parsePagesMore fuel (serPagesTail rest ++ (nlsp 2 ++ 93 :: l)) =
      some (rest, l) := by
  intro rest
  induction rest with
  | nil =>
    intro fuel l hf _
    match fuel, hf with
    | fuel + 1, _ =>
      rw [show serPagesTail [] = [] from rfl, List.nil_append]
      unfold parsePagesMore
      rw [skipWs_nlsp, skipWs_cons_not 93 (by norm_num)]
      dsimp only
      rw [if_pos rfl]
  | cons pg rest' ih =>
    intro fuel l hf hv
    match fuel, hf with
    | fuel + 1, hf2 =>
      rw [show serPagesTail (pg :: rest') =
        [44] ++ nlsp 4 ++ serPage pg ++ serPagesTail rest' from rfl]
      simp only [List.append_assoc, List.cons_append, List.nil_append]
      unfold parsePagesMore
      rw [skipWs_cons_not 44 (by norm_num)]
      dsimp only
      rw [if_neg (by norm_num), if_pos rfl, parsePageObj_nlsp,
        parsePageObj_ser pg (hv pg (List.mem_cons_self pg rest')) _]
      dsimp only
      rw [ih fuel l (by simp only [List.length_cons] at hf2; omega)
        (fun q hq => hv q (List.mem_cons_of_mem pg hq))]

theorem parsePagesArr_ser (pgs : List (Nat × List Nat)) (fuel : Nat)
    (l : List Nat) (hf : pgs.length < fuel)
    (hv : ∀ pg ∈ pgs, ∀ c ∈ pg.2, c < 55296 ∨ (57343 < c ∧ c < 1114112)) :
    parsePagesArr fuel (32 ::
      ((if pgs.isEmpty then [91, 93]
        else [91] ++ nlsp 4 ++ serPagesAll pgs ++ nlsp 2 ++ [93]) ++ l)) =
      some (pgs, l) := by
  match pgs with
  | [] =>
    rw [if_pos (show ([] : List (Nat × List Nat)).isEmpty = true from rfl),
      List.cons_append, List.cons_append, List.nil_append]
    unfold parsePagesArr
    rw [skipWs_cons_ws 32 (by norm_num), skipWs_cons_not 91 (by norm_num),
      expectChar_cons]
    dsimp only
    rw [skipWs_cons_not 93 (by norm_num)]
    dsimp only
    rw [if_pos rfl]
  | pg :: rest =>
    rw [if_neg (by simp), show serPagesAll (pg :: rest) =
      serPage pg ++ serPagesTail rest from rfl]
    simp only [List.append_assoc, List.cons_append, List.nil_append]
    unfold parsePagesArr
    rw [skipWs_cons_ws 32 (by norm_num), skipWs_cons_not 91 (by norm_num),
      expectChar_cons]
    dsimp only
    rw [skipWs_nlsp]
    rw [serPage_cons_shape pg
      (serPagesTail rest ++ (nlsp 2 ++ 93 :: l)),
      skipWs_cons_not 123 (by norm_num)]
    dsimp only
    rw [if_neg (by norm_num),
      ← serPage_cons_shape pg (serPagesTail rest ++ (nlsp 2 ++ 93 :: l)),
      parsePageObj_ser pg (hv pg (List.mem_cons_self pg rest)) _]
    dsimp only
    rw [parsePagesMore_ser rest fuel l
      (by simp only [List.length_cons] at hf; omega)
      (fun q hq => hv q (List.mem_cons_of_mem pg hq))]

theorem serPagesTail_length : ∀ rest : List (Nat × List Nat),
    rest.length ≤ (serPagesTail rest).length := by
  intro rest
  induction rest with
  | nil => simp [serPagesTail]
  | cons pg r ih =>
    rw [show serPagesTail (pg :: r) =
      [44] ++ nlsp 4 ++ serPage pg ++ serPagesTail r from rfl]
    simp only [List.length_append, List.length_cons]
    omega

theorem dumpsPayload_length (pgs : List (Nat × List Nat)) :
    pgs.length < (dumpsPayload pgs).length := by
  match pgs with
  | [] => decide
  | pg :: rest =>
    have h1 := serPagesTail_length rest
    rw [show dumpsPayload (pg :: rest) =
      [123] ++ nlsp 2 ++ [34] ++ keyPagesCodes ++ [34, 58, 32] ++
      ([91] ++ nlsp 4 ++ serPagesAll (pg :: rest) ++ nlsp 2 ++ [93]) ++
      nlsp 0 ++ [125] from by rw [dumpsPayload, if_neg (by simp)]]
    rw [show serPagesAll (pg :: rest) =
      serPage pg ++ serPagesTail rest from rfl]
    simp only [List.length_append, List.length_cons]
    omega

/-- `json.loads` of the `json.dumps` payload recovers every
`(page_number, content)` pair exactly, in order. -/
theorem parsePayload_dumps (pgs : List (Nat × List Nat))
    (hv : ∀ pg ∈ pgs, ∀ c ∈ pg.2, c < 55296 ∨ (57343 < c ∧ c < 1114112)) :
    parsePayload (dumpsPayload pgs) = some pgs := by
  have hk : ∀ C : List Nat, parseKey keyPagesCodes
      (34 :: (keyPagesCodes ++ 34 :: C)) = some C :=
    fun C => parseKey_enc keyPagesCodes (by decide) (by decide) C
  have harr := parsePagesArr_ser pgs (dumpsPayload pgs).length
    ([10, 125]) (dumpsPayload_length pgs) hv
  conv_lhs =>
    rw [show dumpsPayload pgs =
      123 :: (nlsp 2 ++ (34 :: (keyPagesCodes ++ (34 :: 58 :: 32 ::
        ((if pgs.isEmpty then [91, 93]
          else [91] ++ nlsp 4 ++ serPagesAll pgs ++ nlsp 2 ++ [93]) ++
          [10, 125]))))) from by
      rw [dumpsPayload]
      simp [nlsp, List.append_assoc, List.cons_append]]
  unfold parsePayload
  rw [show (123 :: (nlsp 2 ++ (34 :: (keyPagesCodes ++ (34 :: 58 :: 32 ::
      ((if pgs.isEmpty then [91, 93]
        else [91] ++ nlsp 4 ++ serPagesAll pgs ++ nlsp 2 ++ [93]) ++
        [10, 125])))))).length = (dumpsPayload pgs).length from by
    rw [show dumpsPayload pgs =
      123 :: (nlsp 2 ++ (34 :: (keyPagesCodes ++ (34 :: 58 :: 32 ::
        ((if pgs.isEmpty then [91, 93]
          else [91] ++ nlsp 4 ++ serPagesAll pgs ++ nlsp 2 ++ [93]) ++
          [10, 125]))))) from by
      rw [dumpsPayload]
      simp [nlsp, List.append_assoc, List.cons_append]]]
  rw [skipWs_cons_not 123 (by norm_num), expectChar_cons, opt_bind_some,
    skipWs_nlsp, skipWs_cons_not 34 (by norm_num), hk, opt_bind_some,
    skipWs_cons_not 58 (by norm_num), expectChar_cons, opt_bind_some,
    harr, opt_bind_some]
  dsimp only
  rw [show skipWs [10, 125] = [125] from by
    rw [show ([10, 125] : List Nat) = 10 :: [125] from rfl,
      skipWs_cons_ws 10 (by norm_num),
      skipWs_cons_not 125 (by norm_num)]]
  rw [expectChar_cons, opt_bind_some]
  rfl

/-- C9: serializing the `transformed` pages of `clean_document` to the
wire payload `{"pages": [{"page_number": _, "content": _}, ...]}` (as
`json.dumps(transformed, indent=2)` renders it, non-ASCII text escaped)
and parsing that payload back as JSON yields the same `page_number` and
`content` values for every page, in the same order — for every
`NormalizedDocument`, including non-ASCII content. -/
theorem clean_document_wire_roundtrip (pages : List OcrPage) :
    parsePayload (clean_document_wire pages) =
      some (cleanDocumentPairsWire pages) ∧
    cleanDocumentPairsWire pages =
      (clean_document pages).map fun q => (q.1, strCodes q.2) := by
  constructor
  · apply parsePayload_dumps
    intro pg hpg c hc
    simp only [cleanDocumentPairsWire, List.mem_map] at hpg
    obtain ⟨p, _, rfl⟩ := hpg
    simp only [strCodes, List.mem_map] at hc
    obtain ⟨ch, _, rfl⟩ := hc
    have hvalid : Nat.isValidChar ch.val.toNat := ch.valid
    have heq : Char.toNat ch = ch.val.toNat := rfl
    unfold Nat.isValidChar at hvalid
    rw [heq]
    omega
  · simp [cleanDocumentPairsWire, clean_document, transformPage, strCodes]
